import Mathlib

/-!
# Verification of the metaFirst RDMP governance engine

A shallow embedding, in Lean 4, of the RDMP (Research Data Management Plan)
governance core of the metaFirst supervisor:

* `supervisor/services/rdmp_service.py`
  (`validate_rdmp_schema`, `check_sample_completeness`,
   `validate_field_value`, `get_current_rdmp`),
* `supervisor/services/permission_service.py` (`get_user_permissions`),
* `supervisor/api/rdmp.py`
  (`create_project_rdmp_version`, `create_template`,
   `create_template_version`),
* uniqueness constraints of `supervisor/models/rdmp.py`.

The Python functions operate on untyped JSON-shaped data (`dict`/`list`/
scalars).  We model such data with a `Json` inductive type and translate the
relevant parts of Python's dynamic semantics explicitly: `in`-membership,
subscripting, `.get`, set membership (including unhashable-key `TypeError`),
`float(...)` parsing, truthiness, and `str.join`.  Fallible evaluation is
modelled in an `Except Err` monad whose error constructors stand for the
exceptions that can propagate out of the Python code (`TypeError`,
`AttributeError`, `KeyError`, and the storage layer's `IntegrityError`), plus
the HTTP-level failures raised on purpose by the API layer.
-/

namespace MetaFirst

/-- JSON-shaped Python data: `None`, `bool`, numbers (modelled as integers —
no claim in scope depends on non-integral numerics), `str`, `list`, `dict`.
Object fields are kept in insertion order with unique keys, as Python dicts
present them. -/
inductive Json where
  | null : Json
  | bool : Bool → Json
  | num : Int → Json
  | str : String → Json
  | arr : List Json → Json
  | obj : List (String × Json) → Json
deriving Repr

/-- Errors that can escape the embedded code: Python exceptions propagating
out of the governance functions, and the deliberate API failures.
`versionConflict` never occurs in the code; the constructor exists so that
the spec's claimed `VersionConflict` failure mode can be stated and compared
against what the code actually does. -/
inductive Err where
  | typeError : Err
  | attributeError : Err
  | keyError : Err
  | integrityError : Err
  | notFound : Err
  | schemaInvalid : List String → Err
  | versionConflict : Err
deriving Repr, DecidableEq

/-- First binding of a key in a dict's field list (Python dicts have unique
keys, so this is the dict lookup). -/
def lookupField (kvs : List (String × Json)) (k : String) : Option Json :=
  match kvs.find? (fun p => p.1 == k) with
  | some p => some p.2
  | none => none

mutual

/-- Python `==` on JSON-shaped data.  `True == 1`, `False == 0`, numbers
compare numerically, strings as strings, lists elementwise, dicts by key
lookup (dict keys are unique, so a length check plus a one-sided lookup
check coincides with Python dict equality, independent of key order). -/
def pyEq : Json → Json → Bool
  | .null, .null => true
  | .bool a, .bool b => a == b
  | .bool a, .num n => n == (if a then 1 else 0)
  | .num n, .bool a => n == (if a then 1 else 0)
  | .num a, .num b => a == b
  | .str a, .str b => a == b
  | .arr a, .arr b => pyEqList a b
  | .obj a, .obj b => a.length == b.length && pyEqObjSub a b
  | _, _ => false

/-- Elementwise equality of two Python lists. -/
def pyEqList : List Json → List Json → Bool
  | [], [] => true
  | x :: xs, y :: ys => pyEq x y && pyEqList xs ys
  | _, _ => false

/-- Every binding of the first dict is present (with `pyEq`-equal value)
in the second. -/
def pyEqObjSub : List (String × Json) → List (String × Json) → Bool
  | [], _ => true
  | (k, v) :: rest, b =>
    (match lookupField b k with
      | some w => pyEq v w
      | none => false) && pyEqObjSub rest b

end

/-- Whether `pre` is a prefix of `l` (elementwise `==`). -/
def charsStartWith : List Char → List Char → Bool
  | [], _ => true
  | _ :: _, [] => false
  | c :: cs, d :: ds => c == d && charsStartWith cs ds

/-- Whether `needle` occurs as a contiguous sublist of `hay`. -/
def charsOccursIn (needle : List Char) : List Char → Bool
  | [] => needle.isEmpty
  | d :: ds => charsStartWith needle (d :: ds) || charsOccursIn needle ds

/-- Python substring test `needle in hay` for strings. -/
def strContains (hay needle : String) : Bool :=
  charsOccursIn needle.toList hay.toList

/-- Python `key in container` for a string key: dict key membership, list
element membership (via `==`), string substring test; raises `TypeError` on
`None`/`bool`/numbers. -/
def pyContains (container : Json) (key : String) : Except Err Bool :=
  match container with
  | .obj kvs => .ok (kvs.any (fun p => p.1 == key))
  | .arr xs => .ok (xs.any (fun x => pyEq x (.str key)))
  | .str s => .ok (strContains s key)
  | _ => .error .typeError

/-- Python `container[key]` for a string key: dict subscript (`KeyError` when
absent); `TypeError` on a list or string (string/strict index mismatch) and
on scalars. -/
def pyGet (container : Json) (key : String) : Except Err Json :=
  match container with
  | .obj kvs =>
    match lookupField kvs key with
    | some v => .ok v
    | none => .error .keyError
  | _ => .error .typeError

/-- Python `container.get(key, default)`: only dicts have `.get`; anything
else raises `AttributeError`. -/
def pyGetD (container : Json) (key : String) (dflt : Json) : Except Err Json :=
  match container with
  | .obj kvs =>
    match lookupField kvs key with
    | some v => .ok v
    | none => .ok dflt
  | _ => .error .attributeError

/-- Membership of `v` in a Python `set` modelled as a list of its elements:
hashing an unhashable value (list or dict) raises `TypeError`; otherwise
membership via `==`. -/
def pySetContains (seen : List Json) (v : Json) : Except Err Bool :=
  match v with
  | .arr _ => .error .typeError
  | .obj _ => .error .typeError
  | _ => .ok (seen.any (fun x => pyEq x v))

/-- Python truthiness of a JSON-shaped value. -/
def pyTruthy : Json → Bool
  | .null => false
  | .bool b => b
  | .num n => n != 0
  | .str s => !s.isEmpty
  | .arr xs => !xs.isEmpty
  | .obj kvs => !kvs.isEmpty

mutual

/-- Python `repr()` of a JSON-shaped value. -/
def pyRepr : Json → String
  | .null => "None"
  | .bool b => if b then "True" else "False"
  | .num n => toString n
  | .str s => "'" ++ s ++ "'"
  | .arr xs => "[" ++ String.intercalate ", " (pyReprList xs) ++ "]"
  | .obj kvs => "\x7b" ++ String.intercalate ", " (pyReprFields kvs) ++ "\x7d"

/-- `repr` of each element of a list. -/
def pyReprList : List Json → List String
  | [] => []
  | x :: xs => pyRepr x :: pyReprList xs

/-- `repr` of each binding of a dict. -/
def pyReprFields : List (String × Json) → List String
  | [] => []
  | (k, v) :: rest => ("'" ++ k ++ "': " ++ pyRepr v) :: pyReprFields rest

end

/-- Python `str()` of a JSON-shaped value, as an f-string conversion applies
it: strings appear bare, everything else as its `repr`. -/
def pyStr : Json → String
  | .str s => s
  | v => pyRepr v

/-- A digit run as Python's float parser accepts it: nonempty digits with
single underscores strictly between digits (`"1_0"`, not `"_1"`, `"1_"` or
`"1__0"`).  `runTail` scans the part after a digit. -/
def isDigitRun (cs : List Char) : Bool :=
  match cs with
  | [] => false
  | c :: rest => c.isDigit && runTail rest
where
  runTail : List Char → Bool
    | [] => true
    | c :: rest =>
      if c.isDigit then runTail rest
      else if c == '_' then
        match rest with
        | d :: rest2 => d.isDigit && runTail rest2
        | [] => false
      else false

/-- The digit-run test on a string. -/
def isDigitRunStr (s : String) : Bool := isDigitRun s.toList

/-- Whether Python's `float(s)` succeeds on the string `s`: optional
whitespace and sign, then `inf`/`infinity`/`nan` (case-insensitive) or a
decimal mantissa (`D`, `D.`, `D.D`, `.D`) with an optional `e`/`E` exponent. -/
def pyFloatParses (s : String) : Bool :=
  let t := s.trim
  let t := if t.startsWith "+" || t.startsWith "-" then t.drop 1 else t
  let low := t.toLower
  if low == "inf" || low == "infinity" || low == "nan" then true
  else
    match low.splitOn "e" with
    | [m] => isMantissa m
    | [m, ex] => isMantissa m && isExponent ex
    | _ => false
where
  /-- `D`, `D.`, `D.D` or `.D` where `D` is a digit run. -/
  isMantissa (m : String) : Bool :=
    match m.splitOn "." with
    | [a] => isDigitRunStr a
    | [a, b] =>
      if a.isEmpty then isDigitRunStr b
      else isDigitRunStr a && (b.isEmpty || isDigitRunStr b)
    | _ => false
  /-- An optional sign and a digit run. -/
  isExponent (ex : String) : Bool :=
    let ex := if ex.startsWith "+" || ex.startsWith "-" then ex.drop 1 else ex
    isDigitRunStr ex

/-- Whether Python's `float(value)` succeeds: numbers and bools always,
strings when they parse, everything else raises (`ValueError`/`TypeError`,
both caught by the code under study). -/
def floatOk : Json → Bool
  | .num _ => true
  | .bool _ => true
  | .str s => pyFloatParses s
  | _ => false

/-- Python `", ".join(container)`: joins a list (all elements must be
strings), a dict's keys, or a string's characters; raises `TypeError`
otherwise. -/
def pyJoinComma (container : Json) : Except Err String :=
  match container with
  | .arr xs => do
    let strs ← xs.mapM (fun x =>
      match x with
      | .str s => Except.ok s
      | _ => Except.error Err.typeError)
    Except.ok (String.intercalate ", " strs)
  | .obj kvs => .ok (String.intercalate ", " (kvs.map (fun p => p.1)))
  | .str s => .ok (String.intercalate ", " (s.toList.map (fun c => String.mk [c])))
  | _ => .error .typeError

/-- Python `value in container` for an arbitrary value: list membership via
`==`; substring test when both are strings; dict key membership (hashing the
probe, so an unhashable probe raises); `TypeError` on scalars. -/
def pyContainsVal (container : Json) (v : Json) : Except Err Bool :=
  match container with
  | .arr xs => .ok (xs.any (fun x => pyEq x v))
  | .str s =>
    match v with
    | .str t => .ok (strContains s t)
    | _ => .error .typeError
  | .obj kvs =>
    match v with
    | .arr _ => .error .typeError
    | .obj _ => .error .typeError
    | _ => .ok (kvs.any (fun p => pyEq (.str p.1) v))
  | _ => .error .typeError

/-! ## `validate_rdmp_schema` (supervisor/services/rdmp_service.py, lines 10-74) -/

/-- The four recognized permission keys (`required_perms` in the source). -/
def requiredPerms : List String :=
  ["can_edit_metadata", "can_edit_paths", "can_create_release", "can_manage_rdmp"]

/-- The recognized field types. -/
def validFieldTypes : List String := ["string", "number", "date", "categorical"]

/-- The recognized visibility values. -/
def validVisibilities : List String := ["private", "collaborators", "public_index"]

/-- The `for perm in required_perms` loop of `validate_rdmp_schema`: appends
a missing-permission message for each recognized key not present in `perms`.
`roleLabel` is `role.get('name', i)` (evaluated lazily per message in the
source; hoisting it here is observationally equal because the loop is only
reached after `role["permissions"]` succeeded, so `role` is a dict and
`.get` cannot raise). -/
def checkPerms (perms : Json) (roleLabel : Json) (ks : List String)
    (errs : List String) : Except Err (List String) :=
  match ks with
  | [] => .ok errs
  | k :: rest => do
    let c ← pyContains perms k
    let errs := if !c then
        errs ++ ["Role '" ++ pyStr roleLabel ++ "' missing permission '" ++ k ++ "'"]
      else errs
    checkPerms perms roleLabel rest errs

/-- Source lines 28-33 for one role: the `name` checks — missing name,
duplicate detection against the `role_names` set, adding the name to the
set.  Returns the updated `(role_names, errors)`. -/
def roleNameBlock (role : Json) (i : Nat) (seen : List Json)
    (errs : List String) : Except Err (List Json × List String) := do
  let hasName ← pyContains role "name"
  if !hasName then
    Except.ok (seen, errs ++ ["Role " ++ toString i ++ " missing 'name'"])
  else do
    let nm ← pyGet role "name"
    let dup ← pySetContains seen nm
    Except.ok (nm :: seen,
      if dup then errs ++ ["Duplicate role name: " ++ pyStr nm] else errs)

/-- Source lines 35-42 for one role: the `permissions` checks. -/
def rolePermsBlock (role : Json) (i : Nat) (errs : List String) :
    Except Err (List String) := do
  let hasPerms ← pyContains role "permissions"
  if !hasPerms then
    Except.ok (errs ++ ["Role " ++ toString i ++ " missing 'permissions'"])
  else do
    let perms ← pyGet role "permissions"
    let label ← pyGetD role "name" (.num i)
    checkPerms perms label requiredPerms errs

/-- The per-role loop of `validate_rdmp_schema` (source lines 27-42).
`seen` is the `role_names` set, `i` the enumeration index, `errs` the
accumulated error list. -/
def processRoles (roles : List Json) (i : Nat) (seen : List Json)
    (errs : List String) : Except Err (List Json × List String) :=
  match roles with
  | [] => .ok (seen, errs)
  | role :: rest => do
    let st ← roleNameBlock role i seen errs
    let errs2 ← rolePermsBlock role i st.2
    processRoles rest (i + 1) st.1 errs2

/-- Source lines 52-57 for one field: the `key` checks — missing key,
duplicate detection against the `field_keys` set, adding the key. -/
def fieldKeyBlock (field : Json) (i : Nat) (seen : List Json)
    (errs : List String) : Except Err (List Json × List String) := do
  let hasKey ← pyContains field "key"
  if !hasKey then
    Except.ok (seen, errs ++ ["Field " ++ toString i ++ " missing 'key'"])
  else do
    let k ← pyGet field "key"
    let dup ← pySetContains seen k
    Except.ok (k :: seen,
      if dup then errs ++ ["Duplicate field key: " ++ pyStr k] else errs)

/-- Source lines 62-65 for one field: the `type` checks. -/
def fieldTypeBlock (field : Json) (i : Nat) (errs : List String) :
    Except Err (List String) := do
  let hasType ← pyContains field "type"
  if !hasType then
    Except.ok (errs ++ ["Field " ++ toString i ++ " missing 'type'"])
  else do
    let tv ← pyGet field "type"
    if !(validFieldTypes.any (fun t => pyEq (.str t) tv)) then do
      let lbl ← pyGetD field "key" (.num i)
      Except.ok (errs ++
        ["Field '" ++ pyStr lbl ++ "' has invalid type: " ++ pyStr tv])
    else Except.ok errs

/-- Source lines 67-68 for one field: the `visibility` checks. -/
def fieldVisibilityBlock (field : Json) (i : Nat) (errs : List String) :
    Except Err (List String) := do
  let hasVis ← pyContains field "visibility"
  if hasVis then do
    let vv ← pyGet field "visibility"
    if !(validVisibilities.any (fun t => pyEq (.str t) vv)) then do
      let lbl ← pyGetD field "key" (.num i)
      Except.ok (errs ++
        ["Field '" ++ pyStr lbl ++ "' has invalid visibility: " ++ pyStr vv])
    else Except.ok errs
  else Except.ok errs

/-- Source lines 71-72 for one field: the categorical `allowed_values`
check. -/
def fieldCategoricalBlock (field : Json) (i : Nat) (errs : List String) :
    Except Err (List String) := do
  let tdef ← pyGetD field "type" .null
  if pyEq tdef (.str "categorical") then do
    let hasAV ← pyContains field "allowed_values"
    if !hasAV then do
      let lbl ← pyGetD field "key" (.num i)
      Except.ok (errs ++
        ["Categorical field '" ++ pyStr lbl ++ "' missing 'allowed_values'"])
    else Except.ok errs
  else Except.ok errs

/-- The per-field loop of `validate_rdmp_schema` (source lines 51-72).
`seen` is the `field_keys` set; the `label` check (lines 59-60) is a pure
membership test on the field dict. -/
def processFields (fields : List Json) (i : Nat) (seen : List Json)
    (errs : List String) : Except Err (List Json × List String) :=
  match fields with
  | [] => .ok (seen, errs)
  | field :: rest => do
    let st ← fieldKeyBlock field i seen errs
    let hasLabel ← pyContains field "label"
    let errs1 := if !hasLabel then
        st.2 ++ ["Field " ++ toString i ++ " missing 'label'"]
      else st.2
    let errs2 ← fieldTypeBlock field i errs1
    let errs3 ← fieldVisibilityBlock field i errs2
    let errs4 ← fieldCategoricalBlock field i errs3
    processFields rest (i + 1) st.1 errs4

/-- Source lines 21-42: the whole `roles` section.  `hasRoles` is the
membership test already performed on the body; a present non-list (or empty
list) value only yields the non-empty-list error. -/
def rolesSection (j : Json) (hasRoles : Bool) (errs : List String) :
    Except Err (List String) :=
  if hasRoles then do
    let roles ← pyGet j "roles"
    match roles with
    | .arr rs =>
      if rs.isEmpty then Except.ok (errs ++ ["'roles' must be a non-empty list"])
      else do
        let st ← processRoles rs 0 [] errs
        Except.ok st.2
    | _ => Except.ok (errs ++ ["'roles' must be a non-empty list"])
  else Except.ok errs

/-- Source lines 45-72: the whole `fields` section. -/
def fieldsSection (j : Json) (hasFields : Bool) (errs : List String) :
    Except Err (List String) :=
  if hasFields then do
    let fields ← pyGet j "fields"
    match fields with
    | .arr fs =>
      if fs.isEmpty then Except.ok (errs ++ ["'fields' must be a non-empty list"])
      else do
        let st ← processFields fs 0 [] errs
        Except.ok st.2
    | _ => Except.ok (errs ++ ["'fields' must be a non-empty list"])
  else Except.ok errs

/-- `validate_rdmp_schema(rdmp_json)` (source lines 10-74): collects all
structural errors and returns `(len(errors) == 0, errors)`.  An uncaught
Python exception on wrong-shaped nested data surfaces as `Except.error`. -/
def validate_rdmp_schema (j : Json) : Except Err (Bool × List String) := do
  let hasRoles ← pyContains j "roles"
  let hasFields ← pyContains j "fields"
  let errs := (if !hasRoles then ["Missing 'roles' key"] else []) ++
    (if !hasFields then ["Missing 'fields' key"] else [])
  let errs2 ← rolesSection j hasRoles errs
  let errs3 ← fieldsSection j hasFields errs2
  Except.ok (errs3.isEmpty, errs3)

/-! ## `check_sample_completeness` (rdmp_service.py, lines 77-90) -/

/-- Python iteration `for x in container`: a list yields its elements, a
string its characters (as one-character strings), a dict its keys; iterating
`None`/`bool`/numbers raises `TypeError`. -/
def pyIter (container : Json) : Except Err (List Json) :=
  match container with
  | .arr xs => .ok xs
  | .str s => .ok (s.toList.map (fun c => .str (String.mk [c])))
  | .obj kvs => .ok (kvs.map (fun p => .str p.1))
  | _ => .error .typeError

/-- A `FieldValue` row: carries the `field_key` it fills on its sample
(models/sample referenced by the service; only `field_key` is read by the
completeness check). -/
structure FieldValue where
  field_key : String
deriving Repr, DecidableEq

/-- A `Sample` row with its `field_values` relationship. -/
structure Sample where
  field_values : List FieldValue
deriving Repr, DecidableEq

/-- The dict `check_sample_completeness` returns. -/
structure CompletenessResult where
  is_complete : Bool
  missing_fields : List Json
  total_required : Nat
  total_filled : Nat
deriving Repr

/-- `[f for f in fields if f.get("required", False)]`: keeps the fields whose
`required` value is truthy; `.get` on a non-dict element raises. -/
def filterRequired : List Json → Except Err (List Json)
  | [] => .ok []
  | f :: rest => do
    let r ← pyGetD f "required" (.bool false)
    let rest' ← filterRequired rest
    .ok (if pyTruthy r then f :: rest' else rest')

/-- `[f["key"] for f in required_fields if f["key"] not in existing_field_keys]`:
subscripting raises `KeyError` when `key` is absent, and probing the set of
existing keys hashes `f["key"]` (unhashable raises). -/
def collectMissing (required : List Json) (existing : List String) :
    Except Err (List Json) :=
  match required with
  | [] => .ok []
  | f :: rest => do
    let k ← pyGet f "key"
    let isIn ← pySetContains (existing.map Json.str) k
    let rest' ← collectMissing rest existing
    .ok (if !isIn then k :: rest' else rest')

/-- `check_sample_completeness(sample, rdmp)` (source lines 77-90), as a
function of the sample and the version row's `rdmp_json`.
`existing_field_keys` is a Python set comprehension: distinct keys, here the
duplicate-erased key list. -/
def check_sample_completeness (sample : Sample) (rdmpJson : Json) :
    Except Err CompletenessResult := do
  let fieldsJ ← pyGetD rdmpJson "fields" (.arr [])
  let fields ← pyIter fieldsJ
  let required ← filterRequired fields
  let existing := (sample.field_values.map (fun fv => fv.field_key)).eraseDups
  let missing ← collectMissing required existing
  Except.ok
    { is_complete := missing.isEmpty
      missing_fields := missing
      total_required := required.length
      total_filled := existing.length }

/-! ## `validate_field_value` (rdmp_service.py, lines 93-114) -/

/-- Whether a value is a Python `str` (`isinstance(value, str)`). -/
def isPyStr : Json → Bool
  | .str _ => true
  | _ => false

/-- `validate_field_value(field_config, value)` (source lines 93-114): the
`number` branch catches its own exceptions; the `categorical` branch can
raise while testing membership or joining the allowed values into the
failure message; the `date` branch only type-checks; any other `type`
(including `"string"`, or no `type` key at all) falls through to
`(True, None)`. -/
def validate_field_value (fieldConfig : Json) (value : Json) :
    Except Err (Bool × Option String) := do
  let ftype ← pyGetD fieldConfig "type" .null
  if pyEq ftype (.str "number") then
    if !floatOk value then Except.ok (false, some "Value must be a number")
    else Except.ok (true, none)
  else if pyEq ftype (.str "categorical") then do
    let allowed ← pyGetD fieldConfig "allowed_values" (.arr [])
    let isIn ← pyContainsVal allowed value
    if !isIn then do
      let joined ← pyJoinComma allowed
      Except.ok (false, some ("Value must be one of: " ++ joined))
    else Except.ok (true, none)
  else if pyEq ftype (.str "date") then
    if !isPyStr value then Except.ok (false, some "Date must be a string")
    else Except.ok (true, none)
  else Except.ok (true, none)

/-! ## The version store (models/rdmp.py and api/rdmp.py)

`RDMPVersion` rows (project scope) and `RDMPTemplateVersion` rows (template
scope) are append-only tables with uniqueness constraints
`uq_project_rdmp_version (project_id, version_int)` and
`uq_template_version (template_id, version_int)`.  A table is modelled as the
list of its committed rows in insertion order; a constraint violation at
commit surfaces as `Err.integrityError` (SQLAlchemy's `IntegrityError`, which
the API code does not catch). -/

/-- A committed `rdmp_versions` row (models/rdmp.py, `RDMPVersion`). -/
structure RDMPVersionRow where
  project_id : Nat
  version_int : Nat
  rdmp_json : Json
  provenance_json : Option Json
  created_by : Nat
deriving Repr

/-- A committed `rdmp_templates` row (models/rdmp.py, `RDMPTemplate`). -/
structure RDMPTemplateRow where
  id : Nat
  name : String
  description : Option String
deriving Repr

/-- A committed `rdmp_template_versions` row (models/rdmp.py,
`RDMPTemplateVersion`). -/
structure RDMPTemplateVersionRow where
  template_id : Nat
  version_int : Nat
  template_json : Json
  created_by : Nat
deriving Repr

/-- One step of scanning a table for the row with the largest measure: keep
the incumbent unless the new row's measure is strictly larger (so the first
row carrying the maximum wins — the uniqueness constraints make ties
impossible among committed rows anyway). -/
def pickMax {α : Type _} (f : α → Nat) (acc : Option α) (r : α) : Option α :=
  match acc with
  | none => some r
  | some m => if f r > f m then some r else some m

/-- `ORDER BY f DESC ... first()` over a list of rows. -/
def firstMaxBy {α : Type _} (f : α → Nat) (l : List α) : Option α :=
  l.foldl (pickMax f) none

/-- Scanning step from an empty incumbent. -/
theorem pickMax_none {α : Type _} (f : α → Nat) (x : α) :
    pickMax f none x = some x := rfl

/-- Scanning step from a present incumbent. -/
theorem pickMax_some {α : Type _} (f : α → Nat) (a x : α) :
    pickMax f (some a) x = if f x > f a then some x else some a := rfl

/-- `get_current_rdmp(db, project_id)` (rdmp_service.py, lines 117-124):
`ORDER BY version_int DESC ... first()` — the row carrying the maximum
`version_int` among the project's rows. -/
def get_current_rdmp (db : List RDMPVersionRow) (projectId : Nat) :
    Option RDMPVersionRow :=
  firstMaxBy (fun r => r.version_int)
    (db.filter (fun r => r.project_id == projectId))

/-- The same maximum-`version_int` query over the template-version table
(api/rdmp.py, lines 107-112). -/
def latest_template_version (tvs : List RDMPTemplateVersionRow)
    (templateId : Nat) : Option RDMPTemplateVersionRow :=
  firstMaxBy (fun r => r.version_int)
    (tvs.filter (fun r => r.template_id == templateId))

/-- `next_version_int` as `create_template_version` computes it (api/rdmp.py,
line 113). -/
def nextTmplVersionInt (tvs : List RDMPTemplateVersionRow) (tid : Nat) : Nat :=
  match latest_template_version tvs tid with
  | some latest => latest.version_int + 1
  | none => 1

/-! ## The pydantic request bodies (schemas/rdmp.py)

Every write path receives its document body as the pydantic model `RDMPJSON`
(`RDMPVersionCreate.rdmp_json`, `RDMPTemplateCreate.template_json`,
`RDMPTemplateVersionCreate.template_json`) and stores
`model_dump()` of it.  The structures below are those models; `modelDump`
is `model_dump()`, producing the JSON-shaped dict that is validated and
persisted (note `allowed_values = None` dumps as a present key with value
`None`, and defaults `required = False`, `visibility = "collaborators"` are
filled by pydantic before the dump). -/

/-- pydantic `RDMPRole`: `name: str`, `permissions: dict[str, bool]`. -/
structure RDMPRole where
  name : String
  permissions : List (String × Bool)
deriving Repr

/-- pydantic `RDMPField`. -/
structure RDMPField where
  key : String
  label : String
  type : String
  required : Bool
  allowed_values : Option (List String)
  visibility : String
deriving Repr

/-- pydantic `RDMPIngestionRules`. -/
structure RDMPIngestionRules where
  file_patterns : List String
  prompts : List String
deriving Repr

/-- pydantic `RDMPJSON`: the full document body. -/
structure RDMPJSON where
  roles : List RDMPRole
  fields : List RDMPField
  ingestion_rules : RDMPIngestionRules
deriving Repr

/-- `model_dump()` of one role. -/
def dumpRole (r : RDMPRole) : Json :=
  .obj [("name", .str r.name),
        ("permissions", .obj (r.permissions.map (fun p => (p.1, .bool p.2))))]

/-- `model_dump()` of one field (a `None` value for `allowed_values` is
dumped as a present key holding `None`). -/
def dumpField (f : RDMPField) : Json :=
  .obj [("key", .str f.key),
        ("label", .str f.label),
        ("type", .str f.type),
        ("required", .bool f.required),
        ("allowed_values",
          match f.allowed_values with
          | some l => .arr (l.map Json.str)
          | none => .null),
        ("visibility", .str f.visibility)]

/-- `model_dump()` of the ingestion rules. -/
def dumpRules (r : RDMPIngestionRules) : Json :=
  .obj [("file_patterns", .arr (r.file_patterns.map Json.str)),
        ("prompts", .arr (r.prompts.map Json.str))]

/-- `model_dump()` of the whole body. -/
def modelDump (b : RDMPJSON) : Json :=
  .obj [("roles", .arr (b.roles.map dumpRole)),
        ("fields", .arr (b.fields.map dumpField)),
        ("ingestion_rules", dumpRules b.ingestion_rules)]

/-! ## `create_project_rdmp_version` (api/rdmp.py, lines 158-195) -/

/-- `next_version_int` as the endpoint computes it (lines 174-181):
`latest_version.version_int + 1` when a latest row exists, else `1`. -/
def nextVersionInt (db : List RDMPVersionRow) (projectId : Nat) : Nat :=
  match get_current_rdmp db projectId with
  | some latest => latest.version_int + 1
  | none => 1

/-- `create_project_rdmp_version` with the read and the commit observing
possibly different table states: `dbRead` is what the max-version query sees,
`dbCommit` what the uniqueness constraint is checked against at commit time
(a concurrent writer may have committed in between; sequentially the two
coincide, see `create_project_rdmp_version`).  Control flow of the source:
validate the dumped body (HTTP 400 carrying the errors, modelled
`Err.schemaInvalid`, nothing written), read the latest version, insert and
commit — a `(project_id, version_int)` duplicate at commit raises the
storage layer's `IntegrityError`, uncaught by this endpoint, with no retry
anywhere. -/
def create_project_rdmp_versionAt (dbRead dbCommit : List RDMPVersionRow)
    (projectId : Nat) (rdmpData : RDMPJSON) (prov : Option Json)
    (userId : Nat) : Except Err (RDMPVersionRow × List RDMPVersionRow) := do
  let dumped := modelDump rdmpData
  let v ← validate_rdmp_schema dumped
  if !v.1 then Except.error (.schemaInvalid v.2)
  else
    let next := nextVersionInt dbRead projectId
    if dbCommit.any (fun r => r.project_id == projectId && r.version_int == next) then
      Except.error .integrityError
    else
      let row : RDMPVersionRow :=
        { project_id := projectId, version_int := next, rdmp_json := dumped,
          provenance_json := prov, created_by := userId }
      Except.ok (row, dbCommit ++ [row])

/-- `create_project_rdmp_version` run without interference: the commit sees
the same table state the max-version query saw. -/
def create_project_rdmp_version (db : List RDMPVersionRow) (projectId : Nat)
    (rdmpData : RDMPJSON) (prov : Option Json) (userId : Nat) :
    Except Err (RDMPVersionRow × List RDMPVersionRow) :=
  create_project_rdmp_versionAt db db projectId rdmpData prov userId

/-- `create_template` (api/rdmp.py, lines 33-67): validate, insert the
template row (the unique `name` constraint can fire at flush), then insert
its initial version with `version_int = 1`.  The fresh template id is the
autoincrement successor of the largest existing id. -/
def create_template (ts : List RDMPTemplateRow)
    (tvs : List RDMPTemplateVersionRow) (name : String)
    (description : Option String) (templateData : RDMPJSON) (userId : Nat) :
    Except Err (RDMPTemplateRow × List RDMPTemplateRow × List RDMPTemplateVersionRow) := do
  let dumped := modelDump templateData
  let v ← validate_rdmp_schema dumped
  if !v.1 then Except.error (.schemaInvalid v.2)
  else if ts.any (fun t => t.name == name) then Except.error .integrityError
  else
    let tid := (ts.foldl (fun a t => max a t.id) 0) + 1
    let t : RDMPTemplateRow := { id := tid, name := name, description := description }
    if tvs.any (fun r => r.template_id == tid && r.version_int == 1) then
      Except.error .integrityError
    else
      let tv : RDMPTemplateVersionRow :=
        { template_id := tid, version_int := 1, template_json := dumped,
          created_by := userId }
      Except.ok (t, ts ++ [t], tvs ++ [tv])

/-- `create_template_version` (api/rdmp.py, lines 85-126): 404 when the
template does not exist, validate, read the latest version for the template,
insert `latest + 1` (or `1`). -/
def create_template_version (ts : List RDMPTemplateRow)
    (tvs : List RDMPTemplateVersionRow) (templateId : Nat)
    (versionData : RDMPJSON) (userId : Nat) :
    Except Err (RDMPTemplateVersionRow × List RDMPTemplateVersionRow) := do
  if !(ts.any (fun t => t.id == templateId)) then Except.error .notFound
  else
    let dumped := modelDump versionData
    let v ← validate_rdmp_schema dumped
    if !v.1 then Except.error (.schemaInvalid v.2)
    else
      let next := nextTmplVersionInt tvs templateId
      if tvs.any (fun r => r.template_id == templateId && r.version_int == next) then
        Except.error .integrityError
      else
        let row : RDMPTemplateVersionRow :=
          { template_id := templateId, version_int := next,
            template_json := dumped, created_by := userId }
        Except.ok (row, tvs ++ [row])

/-! ## Sequences of store operations -/

/-- The three write operations of the version store. -/
inductive Req where
  | projAppend (projectId : Nat) (body : RDMPJSON) (prov : Option Json) (userId : Nat)
  | templateCreate (name : String) (description : Option String)
      (body : RDMPJSON) (userId : Nat)
  | templateAppend (templateId : Nat) (body : RDMPJSON) (userId : Nat)

/-- The three append-only tables of the store. -/
structure DB where
  rdmp_versions : List RDMPVersionRow
  templates : List RDMPTemplateRow
  template_versions : List RDMPTemplateVersionRow
deriving Repr

/-- The empty store. -/
def DB.empty : DB := { rdmp_versions := [], templates := [], template_versions := [] }

/-- One operation against the store: a successful operation commits its new
rows, a failed one commits nothing (each endpoint raises before or instead
of `db.commit()`). -/
def applyReq (db : DB) (r : Req) : DB :=
  match r with
  | .projAppend p b prov u =>
    match create_project_rdmp_version db.rdmp_versions p b prov u with
    | .ok (_, vs) => { db with rdmp_versions := vs }
    | .error _ => db
  | .templateCreate n d b u =>
    match create_template db.templates db.template_versions n d b u with
    | .ok (_, ts, tvs) => { db with templates := ts, template_versions := tvs }
    | .error _ => db
  | .templateAppend tid b u =>
    match create_template_version db.templates db.template_versions tid b u with
    | .ok (_, tvs) => { db with template_versions := tvs }
    | .error _ => db

/-- The store after a sequence of operations against an initially empty
database. -/
def runReqs (reqs : List Req) : DB := reqs.foldl applyReq DB.empty

/-! ## `get_user_permissions` (permission_service.py, lines 13-55) -/

/-- A `memberships` row (models/membership.py): one `role_name` per
`(project_id, user_id)`. -/
structure Membership where
  project_id : Nat
  user_id : Nat
  role_name : String
deriving Repr, DecidableEq

/-- The all-`False` permission dict returned on missing membership, missing
RDMP, or unmatched role name. -/
def allFalsePermissions : Json :=
  .obj [("can_edit_metadata", .bool false),
        ("can_edit_paths", .bool false),
        ("can_create_release", .bool false),
        ("can_manage_rdmp", .bool false)]

/-- `next((r for r in roles if r["name"] == role_name), None)`: scans until
the first role whose `name` equals the membership's role name; subscripting
a non-dict element raises. -/
def findRole (roles : List Json) (roleName : String) : Except Err (Option Json) :=
  match roles with
  | [] => .ok none
  | r :: rest => do
    let nm ← pyGet r "name"
    if pyEq nm (.str roleName) then .ok (some r) else findRole rest roleName

/-- `get_user_permissions(db, user_id, project_id)` (source lines 13-55):
membership lookup, current-RDMP lookup, role search, then the role's raw
`permissions` value via `role.get("permissions", {})` — the code returns
that dict as found in the stored document, with no defaults filled in. -/
def get_user_permissions (memberships : List Membership)
    (db : List RDMPVersionRow) (userId projectId : Nat) : Except Err Json :=
  match memberships.find? (fun m => m.project_id == projectId && m.user_id == userId) with
  | none => .ok allFalsePermissions
  | some membership =>
    match get_current_rdmp db projectId with
    | none => .ok allFalsePermissions
    | some rdmp => do
      let rolesJ ← pyGetD rdmp.rdmp_json "roles" (.arr [])
      let roles ← pyIter rolesJ
      let role? ← findRole roles membership.role_name
      match role? with
      | none => .ok allFalsePermissions
      | some role => pyGetD role "permissions" (.obj [])

/-! ## Concrete sample data used by witnesses and counterexamples -/

/-- A role with all four recognized permissions granted. -/
def demoRole : RDMPRole :=
  { name := "Lead"
    permissions := [("can_edit_metadata", true), ("can_edit_paths", true),
                    ("can_create_release", true), ("can_manage_rdmp", true)] }

/-- A plain required number field. -/
def demoField : RDMPField :=
  { key := "age", label := "Age", type := "number", required := true,
    allowed_values := none, visibility := "collaborators" }

/-- A valid document body (one role, one field). -/
def demoBody : RDMPJSON :=
  { roles := [demoRole], fields := [demoField],
    ingestion_rules := { file_patterns := [], prompts := [] } }

/-- A body with empty `roles` and `fields`: fails schema validation. -/
def emptyListsBody : RDMPJSON :=
  { roles := [], fields := [],
    ingestion_rules := { file_patterns := [], prompts := [] } }

/-- The full-permissions dict of `demoRole`, as raw JSON. -/
def fullPermsJson : Json :=
  .obj [("can_edit_metadata", .bool true), ("can_edit_paths", .bool true),
        ("can_create_release", .bool true), ("can_manage_rdmp", .bool true)]

/-- A raw body with two roles both named `"Lead"` and one well-formed field. -/
def dupRoleBody : Json :=
  .obj [("roles", .arr [
          .obj [("name", .str "Lead"), ("permissions", fullPermsJson)],
          .obj [("name", .str "Lead"), ("permissions", fullPermsJson)]]),
        ("fields", .arr [
          .obj [("key", .str "age"), ("label", .str "Age"),
                ("type", .str "number")]])]

/-- A raw body whose only field is categorical with no `allowed_values`
entry. -/
def missingAllowedBody : Json :=
  .obj [("roles", .arr [
          .obj [("name", .str "Lead"), ("permissions", fullPermsJson)]]),
        ("fields", .arr [
          .obj [("key", .str "grade"), ("label", .str "Grade"),
                ("type", .str "categorical")]])]

/-- A raw body whose `roles` list holds a non-mapping element. -/
def nonMappingRoleBody : Json :=
  .obj [("roles", .arr [.num 1]),
        ("fields", .arr [
          .obj [("key", .str "age"), ("label", .str "Age"),
                ("type", .str "string")]])]

/-- A committed row for project 1, version 1. -/
def conflictRow : RDMPVersionRow :=
  { project_id := 1, version_int := 1, rdmp_json := modelDump demoBody,
    provenance_json := none, created_by := 2 }

/-! ## Claim theorems -/

/-- C7: `validate_rdmp_schema` fails on a body with two roles both named
`"Lead"`, reporting exactly the duplicate-role error, and fails on a body
whose categorical field `grade` has no `allowed_values` entry, reporting
exactly the missing-allowed-values error. -/
theorem c7_duplicate_role_and_missing_allowed_values :
    validate_rdmp_schema dupRoleBody = .ok (false, ["Duplicate role name: Lead"]) ∧
    validate_rdmp_schema missingAllowedBody =
      .ok (false, ["Categorical field 'grade' missing 'allowed_values'"]) :=
  ⟨rfl, rfl⟩

/-- C10: a field specification with no `type` key, or with a `type` not equal
to `number`, `categorical` or `date` (so also the declared type `string`),
applies no validation at all: `validate_field_value` accepts every value as
`(True, None)`. -/
def unrecognizedFieldType (kvs : List (String × Json)) : Bool :=
  let t := (lookupField kvs "type").getD .null
  !pyEq t (.str "number") && !pyEq t (.str "categorical") && !pyEq t (.str "date")

/-- Evaluation of `pyGetD` on a dict. -/
theorem pyGetD_obj (kvs : List (String × Json)) (k : String) (d : Json) :
    pyGetD (.obj kvs) k d = .ok ((lookupField kvs k).getD d) := by
  simp only [pyGetD]
  cases lookupField kvs k <;> rfl

/-- C10: for every value, when the field specification (a mapping) has no
`type` key or a `type` outside `number`/`categorical`/`date` — including the
declared type `string` — `validate_field_value` returns `(True, None)`. -/
theorem c10_unrecognized_type_accepts_everything
    (kvs : List (String × Json)) (value : Json)
    (h : unrecognizedFieldType kvs = true) :
    validate_field_value (.obj kvs) value = .ok (true, none) := by
  simp only [unrecognizedFieldType, Bool.and_eq_true, Bool.not_eq_true'] at h
  obtain ⟨⟨h1, h2⟩, h3⟩ := h
  simp [validate_field_value, pyGetD_obj, Bind.bind, Except.bind, h1, h2, h3]

/-- C10 witness: the declared type `string` accepts a numeric value. -/
theorem c10_witness :
    unrecognizedFieldType [("type", Json.str "string")] = true ∧
    validate_field_value (.obj [("type", Json.str "string")]) (.num 3) =
      .ok (true, none) :=
  ⟨rfl, c10_unrecognized_type_accepts_everything _ _ rfl⟩

/-- C2 counterexample: a concrete conflicting interleaving.  The read sees an
empty table (`next = 1`), a concurrent writer has committed `(project 1,
version 1)` by commit time, and the operation fails with the raw storage
`IntegrityError` — it does not retry and does not fail with the
`VersionConflict` the spec describes. -/
theorem c2_counterexample_conflict_propagates_integrity_error :
    create_project_rdmp_versionAt [] [conflictRow] 1 demoBody none 7 =
      .error .integrityError ∧
    (Except.error .integrityError :
        Except Err (RDMPVersionRow × List RDMPVersionRow)) ≠
      .error .versionConflict :=
  ⟨rfl, by simp⟩

/-- C2 amended: when the insert of a new RDMP version hits the
`(project_id, version_int)` uniqueness conflict, `create_project_rdmp_version`
fails immediately with the storage layer's `IntegrityError`: it performs no
re-read, no retry, and no `VersionConflict` failure mode exists in the
code. -/
theorem c2_amended_conflict_fails_without_retry
    (dbRead dbCommit : List RDMPVersionRow) (p : Nat) (b : RDMPJSON)
    (prov : Option Json) (u : Nat) (es : List String)
    (hv : validate_rdmp_schema (modelDump b) = .ok (true, es))
    (h : dbCommit.any (fun r =>
        r.project_id == p && r.version_int == nextVersionInt dbRead p) = true) :
    create_project_rdmp_versionAt dbRead dbCommit p b prov u =
      .error .integrityError := by
  simp [create_project_rdmp_versionAt, hv, h, Bind.bind, Except.bind]

/-- C2 amended, witness: the amended theorem applied to the counterexample's
interleaving. -/
theorem c2_amended_witness :
    validate_rdmp_schema (modelDump demoBody) = .ok (true, []) ∧
    ([conflictRow].any (fun r =>
        r.project_id == 1 && r.version_int == nextVersionInt [] 1) = true) ∧
    create_project_rdmp_versionAt [] [conflictRow] 1 demoBody none 7 =
      .error .integrityError :=
  ⟨rfl, rfl, c2_amended_conflict_fails_without_retry [] [conflictRow] 1
    demoBody none 7 [] rfl rfl⟩

/-- The strings among a field specification's `allowed_values` (all of them,
once `fieldValueSafe` holds). -/
def allowedStrings (kvs : List (String × Json)) : List String :=
  match (lookupField kvs "allowed_values").getD (.arr []) with
  | .arr xs => xs.filterMap (fun x =>
      match x with
      | .str s => some s
      | _ => none)
  | _ => []

/-- The safety precondition under which `validate_field_value` cannot raise:
the specification is a mapping and, when its `type` is `categorical`, its
`allowed_values` (an empty list when absent) is a list of strings.  Outside
this condition the categorical branch can raise a `TypeError` while testing
membership or while joining the allowed values into the failure message. -/
def fieldValueSafe : Json → Bool
  | .obj kvs =>
    if pyEq ((lookupField kvs "type").getD .null) (.str "categorical") then
      match (lookupField kvs "allowed_values").getD (.arr []) with
      | .arr xs => xs.all isPyStr
      | _ => false
    else true
  | _ => false

/-- The spec's acceptance condition (spec 4.4) for a field specification,
written from its words: `number` accepts exactly what parses as a float,
`categorical` exactly the members of `allowed_values` by string match,
`date` exactly strings, and any other type everything. -/
def fieldValueSpecOk (kvs : List (String × Json)) (value : Json) : Bool :=
  match (lookupField kvs "type").getD .null with
  | .str t =>
    if t == "number" then floatOk value
    else if t == "categorical" then
      match value with
      | .str v => (allowedStrings kvs).contains v
      | _ => false
    else if t == "date" then isPyStr value
    else true
  | _ => true

/-- The failure message `validate_field_value` produces for each typed
branch. -/
def fieldValueFailMsg (kvs : List (String × Json)) : String :=
  match (lookupField kvs "type").getD .null with
  | .str t =>
    if t == "number" then "Value must be a number"
    else if t == "categorical" then
      "Value must be one of: " ++ String.intercalate ", " (allowedStrings kvs)
    else "Date must be a string"
  | _ => ""

/-- Symmetry of `==` for a type with lawful boolean equality. -/
theorem beqSymm {α : Type _} [BEq α] [LawfulBEq α] (a b : α) :
    (a == b) = (b == a) := by
  rw [Bool.eq_iff_iff]
  simp only [beq_iff_eq]
  exact eq_comm

/-- Membership via Python `==` over a list of strings is string-list
membership of a string value (and false for any non-string value). -/
theorem anyPyEq_of_allStrings (xs : List Json) (value : Json)
    (h : xs.all isPyStr = true) :
    xs.any (fun x => pyEq x value) =
      (match value with
       | .str v => (xs.filterMap (fun x =>
           match x with
           | .str s => some s
           | _ => none)).contains v
       | _ => false) := by
  induction xs with
  | nil => cases value <;> rfl
  | cons x rest ih =>
    simp only [List.all_cons, Bool.and_eq_true] at h
    obtain ⟨hx, hrest⟩ := h
    cases x with
    | str s =>
      cases value with
      | str v =>
        simp only [List.any_cons, List.filterMap_cons, ih hrest,
          List.contains_cons]
        show (pyEq (.str s) (.str v) || _) = _
        simp only [pyEq]
        rw [beqSymm s v]
      | null => simpa [pyEq] using ih hrest
      | bool b => simpa [pyEq] using ih hrest
      | num n => simpa [pyEq] using ih hrest
      | arr a => simpa [pyEq] using ih hrest
      | obj o => simpa [pyEq] using ih hrest
    | null => simp [isPyStr] at hx
    | bool b => simp [isPyStr] at hx
    | num n => simp [isPyStr] at hx
    | arr a => simp [isPyStr] at hx
    | obj o => simp [isPyStr] at hx

/-- Extracting the strings of an all-string list never fails and yields
exactly the `filterMap` of the string constructors. -/
theorem mapM_extract_strings (xs : List Json) (h : xs.all isPyStr = true) :
    xs.mapM (fun x =>
        match x with
        | .str s => Except.ok s
        | _ => Except.error Err.typeError) =
      .ok (xs.filterMap (fun x =>
        match x with
        | .str s => some s
        | _ => none)) := by
  induction xs with
  | nil => rfl
  | cons x rest ih =>
    simp only [List.all_cons, Bool.and_eq_true] at h
    obtain ⟨hx, hrest⟩ := h
    cases x with
    | str s =>
      rw [List.mapM_cons, ih hrest]
      rfl
    | null => simp [isPyStr] at hx
    | bool b => simp [isPyStr] at hx
    | num n => simp [isPyStr] at hx
    | arr a => simp [isPyStr] at hx
    | obj o => simp [isPyStr] at hx

/-- C9 counterexample: a categorical field specification whose
`allowed_values` list holds a non-string.  Membership fails for the value
`"x"`, and building the failure message joins the allowed values — which
raises `TypeError` in Python; the validator does not return an `(ok, error)`
pair here. -/
theorem c9_counterexample_raises_on_nonstring_allowed_values :
    validate_field_value
      (.obj [("type", .str "categorical"), ("allowed_values", .arr [.num 1])])
      (.str "x") = .error .typeError := rfl

/-- C9 amended: for every field specification that is a mapping whose
`allowed_values` (when the type is `categorical`; an empty list when absent)
is a list of strings, and for every value, `validate_field_value` returns a
structured `(ok, error)` pair without raising; `ok` holds exactly under the
spec's per-type acceptance condition (number: parses as float; categorical:
string member of the allowed set; date: a string; anything else: no
constraint), and a failure carries the branch's message (for categorical,
listing the allowed set). -/
theorem c9_amended_structured_result (kvs : List (String × Json)) (value : Json)
    (h : fieldValueSafe (.obj kvs) = true) :
    validate_field_value (.obj kvs) value =
      .ok (fieldValueSpecOk kvs value,
        if fieldValueSpecOk kvs value then none
        else some (fieldValueFailMsg kvs)) := by
  unfold validate_field_value fieldValueSpecOk fieldValueFailMsg
  simp only [pyGetD_obj, Bind.bind, Except.bind]
  simp only [fieldValueSafe] at h
  cases htv : (lookupField kvs "type").getD .null with
  | str s =>
    rw [htv] at h
    by_cases hnum : s = "number"
    · subst hnum
      cases hf : floatOk value <;> simp [pyEq, hf]
    · have hnum' : (s == "number") = false := by simp [hnum]
      by_cases hcat : s = "categorical"
      · subst hcat
        simp only [pyEq, hnum', if_false, Bool.false_eq_true, reduceIte] at h ⊢
        cases hav : (lookupField kvs "allowed_values").getD (.arr []) with
        | arr xs =>
          rw [hav] at h
          have hmem := anyPyEq_of_allStrings xs value h
          have hjoin := mapM_extract_strings xs h
          simp only [pyContainsVal, Bind.bind, Except.bind, pyJoinComma,
            hjoin, hmem, allowedStrings, hav]
          cases value <;> (simp [List.contains_eq_any_beq]; try split) <;>
            simp_all
        | null => rw [hav] at h; simp at h
        | bool b => rw [hav] at h; simp at h
        | num n => rw [hav] at h; simp at h
        | str t => rw [hav] at h; simp at h
        | obj o => rw [hav] at h; simp at h
      · have hcat' : (s == "categorical") = false := by simp [hcat]
        by_cases hdate : s = "date"
        · subst hdate
          cases hps : isPyStr value <;> simp [pyEq, hps]
        · have hdate' : (s == "date") = false := by simp [hdate]
          simp [pyEq, hnum', hcat', hdate']
  | null => simp [pyEq]
  | bool b => simp [pyEq]
  | num n => simp [pyEq]
  | arr a => simp [pyEq]
  | obj o => simp [pyEq]

/-- C9 amended, witness: a safe categorical specification rejecting a value
outside its allowed set. -/
theorem c9_amended_witness :
    fieldValueSafe (.obj [("type", Json.str "categorical"),
      ("allowed_values", Json.arr [.str "a", .str "b"])]) = true ∧
    validate_field_value (.obj [("type", Json.str "categorical"),
        ("allowed_values", Json.arr [.str "a", .str "b"])]) (.str "c") =
      .ok (fieldValueSpecOk [("type", Json.str "categorical"),
          ("allowed_values", Json.arr [.str "a", .str "b"])] (.str "c"),
        if fieldValueSpecOk [("type", Json.str "categorical"),
            ("allowed_values", Json.arr [.str "a", .str "b"])] (.str "c")
        then none
        else some (fieldValueFailMsg [("type", Json.str "categorical"),
          ("allowed_values", Json.arr [.str "a", .str "b"])])) :=
  ⟨rfl, c9_amended_structured_result _ _ rfl⟩

/-! ## C3: exception-freedom of `validate_rdmp_schema` on safe shapes -/

/-- Whether a value can be hashed (put in a Python set): lists and dicts
cannot. -/
def hashableJson : Json → Bool
  | .arr _ => false
  | .obj _ => false
  | _ => true

/-- Whether `x in v` is defined for a string `x` (dicts, lists and strings
support `in`; scalars raise). -/
def supportsContains : Json → Bool
  | .obj _ => true
  | .arr _ => true
  | .str _ => true
  | _ => false

/-- A `roles` entry on which the validator's role loop cannot raise: a
mapping whose `name` (when present) is hashable and whose `permissions`
(when present) supports membership tests. -/
def roleSafe : Json → Bool
  | .obj kvs =>
    (match lookupField kvs "name" with
     | some v => hashableJson v
     | none => true) &&
    (match lookupField kvs "permissions" with
     | some v => supportsContains v
     | none => true)
  | _ => false

/-- A `fields` entry on which the validator's field loop cannot raise: a
mapping whose `key` (when present) is hashable. -/
def fieldSafe : Json → Bool
  | .obj kvs =>
    match lookupField kvs "key" with
    | some v => hashableJson v
    | none => true
  | _ => false

/-- The safety precondition for `validate_rdmp_schema`: the body is a
mapping, and when `roles` (resp. `fields`) holds a list, every entry is
`roleSafe` (resp. `fieldSafe`).  A non-list `roles`/`fields` value only
produces an error message. -/
def validateSafe : Json → Bool
  | .obj kvs =>
    (match lookupField kvs "roles" with
     | some (.arr rs) => rs.all roleSafe
     | _ => true) &&
    (match lookupField kvs "fields" with
     | some (.arr fs) => fs.all fieldSafe
     | _ => true)
  | _ => false

/-- Unfolding `lookupField` over a cons cell. -/
theorem lookupField_cons (p : String × Json) (rest : List (String × Json))
    (k : String) :
    lookupField (p :: rest) k =
      if p.1 == k then some p.2 else lookupField rest k := by
  simp only [lookupField, List.find?_cons]
  cases hpk : (p.1 == k) <;> simp [hpk]

/-- The `in`-test of a dict agrees with `lookupField` having a result. -/
theorem any_eq_isSome_lookupField (kvs : List (String × Json)) (k : String) :
    (kvs.any fun p => p.1 == k) = (lookupField kvs k).isSome := by
  induction kvs with
  | nil => rfl
  | cons p rest ih =>
    rw [List.any_cons, lookupField_cons, ih]
    cases hpk : (p.1 == k) <;> simp [hpk]

/-- Sequencing through `Except`: if the first component evaluates to a known
`ok` and the continuation succeeds on that value, the bind succeeds. -/
theorem exOk_bind_eq {α β : Type _} {e : Except Err α} {v : α}
    {f : α → Except Err β} (he : e = .ok v) (hf : ∃ out, f v = .ok out) :
    ∃ out, (e >>= f) = .ok out := by
  obtain ⟨o, ho⟩ := hf
  exact ⟨o, by rw [he]; simpa [Bind.bind, Except.bind] using ho⟩

/-- The permission-key loop cannot raise when `perms` supports membership
tests. -/
theorem checkPerms_ok (perms label : Json)
    (hsafe : supportsContains perms = true) (ks : List String) :
    ∀ errs : List String, ∃ out, checkPerms perms label ks errs = .ok out := by
  induction ks with
  | nil => exact fun errs => ⟨errs, rfl⟩
  | cons k rest ih =>
    intro errs
    have hc : ∃ b, pyContains perms k = .ok b := by
      cases perms <;> simp [supportsContains] at hsafe <;> exact ⟨_, rfl⟩
    obtain ⟨b, hb⟩ := hc
    exact exOk_bind_eq hb (ih _)

/-- Sequencing through `Except` when the first component succeeds with some
value and the continuation succeeds on every value. -/
theorem exOk_bindEx {α β : Type _} {e : Except Err α} {f : α → Except Err β}
    (he : ∃ v, e = .ok v) (hf : ∀ v, ∃ out, f v = .ok out) :
    ∃ out, (e >>= f) = .ok out := by
  obtain ⟨v, hv⟩ := he
  exact exOk_bind_eq hv (hf v)

/-- An `if` both of whose branches succeed. -/
theorem exOk_if {α : Type _} {c : Bool} {e1 e2 : Except Err α}
    (h1 : ∃ v, e1 = .ok v) (h2 : ∃ v, e2 = .ok v) :
    ∃ v, (if c then e1 else e2) = .ok v := by
  cases c
  · simpa using h2
  · simpa using h1

/-- Set membership succeeds on a hashable probe. -/
theorem pySetContains_ok (seen : List Json) (v : Json)
    (h : hashableJson v = true) :
    pySetContains seen v = .ok (seen.any (fun x => pyEq x v)) := by
  cases v <;> simp_all [hashableJson, pySetContains]

/-- The permission loop followed by any total continuation succeeds. -/
theorem exOk_checkPerms_then {γ : Type _} {perms label : Json}
    {ks : List String} {e : List String} {g : List String → Except Err γ}
    (hs : supportsContains perms = true)
    (hg : ∀ er, ∃ out, g er = .ok out) :
    ∃ out, (checkPerms perms label ks e >>= g) = .ok out := by
  obtain ⟨e2, he2⟩ := checkPerms_ok perms label hs ks e
  exact exOk_bind_eq he2 (hg e2)

/-- The name block cannot raise on a mapping with a hashable name. -/
theorem roleNameBlock_ok (kvs : List (String × Json)) (i : Nat)
    (seen : List Json) (errs : List String)
    (hname : (match lookupField kvs "name" with
      | some v => hashableJson v
      | none => true) = true) :
    ∃ out, roleNameBlock (.obj kvs) i seen errs = .ok out := by
  unfold roleNameBlock
  refine exOk_bind_eq
    (show pyContains (.obj kvs) "name" = .ok (lookupField kvs "name").isSome by
      simp [pyContains, any_eq_isSome_lookupField]) ?_
  cases hn : lookupField kvs "name" with
  | none => simp
  | some nm =>
    rw [hn] at hname
    simp only [Option.isSome_some, Bool.not_true, Bool.false_eq_true,
      reduceIte, pyGet, hn, Bind.bind, Except.bind,
      pySetContains_ok seen nm hname]
    exact ⟨_, rfl⟩

/-- The permissions block cannot raise on a mapping whose permissions value
supports membership. -/
theorem rolePermsBlock_ok (kvs : List (String × Json)) (i : Nat)
    (errs : List String)
    (hperm : (match lookupField kvs "permissions" with
      | some v => supportsContains v
      | none => true) = true) :
    ∃ out, rolePermsBlock (.obj kvs) i errs = .ok out := by
  unfold rolePermsBlock
  refine exOk_bind_eq
    (show pyContains (.obj kvs) "permissions" =
        .ok (lookupField kvs "permissions").isSome by
      simp [pyContains, any_eq_isSome_lookupField]) ?_
  cases hp : lookupField kvs "permissions" with
  | none => simp
  | some perms =>
    rw [hp] at hperm
    simp only [Option.isSome_some, Bool.not_true, Bool.false_eq_true,
      reduceIte, pyGet, hp, Bind.bind, Except.bind]
    refine exOk_bindEx ⟨_, pyGetD_obj kvs "name" (.num i)⟩ (fun lbl => ?_)
    exact checkPerms_ok perms lbl hperm requiredPerms errs

/-- The role loop of the validator cannot raise on a list of `roleSafe`
entries. -/
theorem processRoles_ok (roles : List Json) :
    roles.all roleSafe = true →
    ∀ (i : Nat) (seen : List Json) (errs : List String),
      ∃ out, processRoles roles i seen errs = .ok out := by
  induction roles with
  | nil => exact fun _ i seen errs => ⟨_, rfl⟩
  | cons role rest ih =>
    intro h i seen errs
    rw [List.all_cons, Bool.and_eq_true] at h
    obtain ⟨hrole, hrest⟩ := h
    cases role with
    | null => simp [roleSafe] at hrole
    | bool b => simp [roleSafe] at hrole
    | num n => simp [roleSafe] at hrole
    | str s => simp [roleSafe] at hrole
    | arr a => simp [roleSafe] at hrole
    | obj kvs =>
      simp only [roleSafe, Bool.and_eq_true] at hrole
      obtain ⟨hname, hperm⟩ := hrole
      simp only [processRoles]
      refine exOk_bindEx (roleNameBlock_ok kvs i seen errs hname) (fun st => ?_)
      refine exOk_bindEx (rolePermsBlock_ok kvs i st.2 hperm) (fun e2 => ?_)
      exact ih hrest _ _ _

/-- The key block cannot raise on a mapping with a hashable key. -/
theorem fieldKeyBlock_ok (kvs : List (String × Json)) (i : Nat)
    (seen : List Json) (errs : List String)
    (hkeyv : (match lookupField kvs "key" with
      | some v => hashableJson v
      | none => true) = true) :
    ∃ out, fieldKeyBlock (.obj kvs) i seen errs = .ok out := by
  unfold fieldKeyBlock
  refine exOk_bind_eq
    (show pyContains (.obj kvs) "key" = .ok (lookupField kvs "key").isSome by
      simp [pyContains, any_eq_isSome_lookupField]) ?_
  cases hk : lookupField kvs "key" with
  | none => simp
  | some k =>
    rw [hk] at hkeyv
    simp only [Option.isSome_some, Bool.not_true, Bool.false_eq_true,
      reduceIte, pyGet, hk, Bind.bind, Except.bind,
      pySetContains_ok seen k hkeyv]
    exact ⟨_, rfl⟩

/-- The type block cannot raise on a mapping. -/
theorem fieldTypeBlock_ok (kvs : List (String × Json)) (i : Nat)
    (errs : List String) :
    ∃ out, fieldTypeBlock (.obj kvs) i errs = .ok out := by
  unfold fieldTypeBlock
  refine exOk_bind_eq
    (show pyContains (.obj kvs) "type" = .ok (lookupField kvs "type").isSome by
      simp [pyContains, any_eq_isSome_lookupField]) ?_
  cases ht : lookupField kvs "type" with
  | none => simp
  | some tv =>
    simp only [Option.isSome_some, Bool.not_true, Bool.false_eq_true,
      reduceIte, pyGet, ht, Bind.bind, Except.bind]
    refine exOk_if ?_ ⟨_, rfl⟩
    exact exOk_bindEx ⟨_, pyGetD_obj kvs "key" (.num i)⟩ (fun lbl => ⟨_, rfl⟩)

/-- The visibility block cannot raise on a mapping. -/
theorem fieldVisibilityBlock_ok (kvs : List (String × Json)) (i : Nat)
    (errs : List String) :
    ∃ out, fieldVisibilityBlock (.obj kvs) i errs = .ok out := by
  unfold fieldVisibilityBlock
  refine exOk_bind_eq
    (show pyContains (.obj kvs) "visibility" =
        .ok (lookupField kvs "visibility").isSome by
      simp [pyContains, any_eq_isSome_lookupField]) ?_
  cases hv : lookupField kvs "visibility" with
  | none => simp
  | some vv =>
    simp only [Option.isSome_some, reduceIte, pyGet, hv,
      Bind.bind, Except.bind]
    refine exOk_if ?_ ⟨_, rfl⟩
    exact exOk_bindEx ⟨_, pyGetD_obj kvs "key" (.num i)⟩ (fun lbl => ⟨_, rfl⟩)

/-- The categorical block cannot raise on a mapping. -/
theorem fieldCategoricalBlock_ok (kvs : List (String × Json)) (i : Nat)
    (errs : List String) :
    ∃ out, fieldCategoricalBlock (.obj kvs) i errs = .ok out := by
  unfold fieldCategoricalBlock
  refine exOk_bind_eq (pyGetD_obj kvs "type" .null) ?_
  refine exOk_if ?_ ⟨_, rfl⟩
  refine exOk_bind_eq
    (show pyContains (.obj kvs) "allowed_values" =
        .ok (lookupField kvs "allowed_values").isSome by
      simp [pyContains, any_eq_isSome_lookupField]) ?_
  refine exOk_if ?_ ⟨_, rfl⟩
  exact exOk_bindEx ⟨_, pyGetD_obj kvs "key" (.num i)⟩ (fun lbl => ⟨_, rfl⟩)

/-- The field loop of the validator cannot raise on a list of `fieldSafe`
entries. -/
theorem processFields_ok (fields : List Json) :
    fields.all fieldSafe = true →
    ∀ (i : Nat) (seen : List Json) (errs : List String),
      ∃ out, processFields fields i seen errs = .ok out := by
  induction fields with
  | nil => exact fun _ i seen errs => ⟨_, rfl⟩
  | cons field rest ih =>
    intro h i seen errs
    rw [List.all_cons, Bool.and_eq_true] at h
    obtain ⟨hfield, hrest⟩ := h
    cases field with
    | null => simp [fieldSafe] at hfield
    | bool b => simp [fieldSafe] at hfield
    | num n => simp [fieldSafe] at hfield
    | str s => simp [fieldSafe] at hfield
    | arr a => simp [fieldSafe] at hfield
    | obj kvs =>
      simp only [fieldSafe] at hfield
      simp only [processFields]
      refine exOk_bindEx (fieldKeyBlock_ok kvs i seen errs hfield) (fun st => ?_)
      refine exOk_bindEx ⟨_, rfl⟩ (fun hasLabel => ?_)
      refine exOk_bindEx (fieldTypeBlock_ok kvs i _) (fun e2 => ?_)
      refine exOk_bindEx (fieldVisibilityBlock_ok kvs i e2) (fun e3 => ?_)
      refine exOk_bindEx (fieldCategoricalBlock_ok kvs i e3) (fun e4 => ?_)
      exact ih hrest _ _ _

/-- C3 counterexample: on a body whose `roles` list holds the integer `1`,
the validator does not return an `(ok, errors)` pair — the membership test
`"name" not in role` raises `TypeError` in Python, which propagates to the
caller. -/
theorem c3_counterexample_nonmapping_role_raises :
    validate_rdmp_schema nonMappingRoleBody = .error .typeError := rfl

/-- `validate_rdmp_schema` cannot raise on a `validateSafe` body. -/
theorem validate_ok_of_safe (j : Json)
    (h : validateSafe j = true) :
    ∃ out, validate_rdmp_schema j = .ok out := by
  cases j with
  | null => simp [validateSafe] at h
  | bool b => simp [validateSafe] at h
  | num n => simp [validateSafe] at h
  | str s => simp [validateSafe] at h
  | arr a => simp [validateSafe] at h
  | obj kvs =>
    simp only [validateSafe, Bool.and_eq_true] at h
    obtain ⟨hr, hf⟩ := h
    unfold validate_rdmp_schema
    refine exOk_bind_eq
      (show pyContains (.obj kvs) "roles" =
          .ok (lookupField kvs "roles").isSome by
        simp [pyContains, any_eq_isSome_lookupField]) ?_
    refine exOk_bind_eq
      (show pyContains (.obj kvs) "fields" =
          .ok (lookupField kvs "fields").isSome by
        simp [pyContains, any_eq_isSome_lookupField]) ?_
    refine exOk_bindEx ?_ (fun errs1 => ?_)
    · -- the roles section
      unfold rolesSection
      cases hlr : lookupField kvs "roles" with
      | none => simp
      | some roles =>
        rw [hlr] at hr
        simp only [Option.isSome_some, reduceIte, pyGet, hlr,
          Bind.bind, Except.bind]
        cases roles with
        | arr rs =>
          cases rs with
          | nil => exact ⟨_, rfl⟩
          | cons r rr =>
            simp only [List.isEmpty_cons, Bool.false_eq_true, reduceIte]
            exact exOk_bindEx (processRoles_ok _ hr _ _ _) (fun st => ⟨_, rfl⟩)
        | null => exact ⟨_, rfl⟩
        | bool b => exact ⟨_, rfl⟩
        | num n => exact ⟨_, rfl⟩
        | str s => exact ⟨_, rfl⟩
        | obj o => exact ⟨_, rfl⟩
    · -- the fields section, then the final pair
      refine exOk_bindEx ?_ (fun errs2 => ⟨_, rfl⟩)
      unfold fieldsSection
      cases hlf : lookupField kvs "fields" with
      | none => simp
      | some fields =>
        rw [hlf] at hf
        simp only [Option.isSome_some, reduceIte, pyGet, hlf,
          Bind.bind, Except.bind]
        cases fields with
        | arr fs =>
          cases fs with
          | nil => exact ⟨_, rfl⟩
          | cons f fr =>
            simp only [List.isEmpty_cons, Bool.false_eq_true, reduceIte]
            exact exOk_bindEx (processFields_ok _ hf _ _ _) (fun st => ⟨_, rfl⟩)
        | null => exact ⟨_, rfl⟩
        | bool b => exact ⟨_, rfl⟩
        | num n => exact ⟨_, rfl⟩
        | str s => exact ⟨_, rfl⟩
        | obj o => exact ⟨_, rfl⟩

/-- C3 amended: `validate_rdmp_schema` terminates normally with an
`(ok, errors)` pair — and has no side effects, being a pure function of its
argument — for every body that is a mapping whose `roles` and `fields`
entries (when those hold lists) are themselves mappings with hashable
`name`/`key` values and membership-testable `permissions` values; bodies
outside this shape (for example a non-mapping roles entry) can raise
`TypeError`/`AttributeError` instead. -/
theorem c3_amended_returns_pair_on_safe_bodies (j : Json)
    (h : validateSafe j = true) :
    ∃ out, validate_rdmp_schema j = .ok out :=
  validate_ok_of_safe j h

/-- C3 amended, witness: a safe body with a wrong-shaped `fields` value and a
minimal role entry. -/
theorem c3_amended_witness :
    validateSafe (.obj [("roles", Json.arr [.obj [("name", Json.str "x")]]),
      ("fields", Json.str "zz")]) = true ∧
    ∃ out, validate_rdmp_schema
      (.obj [("roles", Json.arr [.obj [("name", Json.str "x")]]),
        ("fields", Json.str "zz")]) = .ok out :=
  ⟨rfl, c3_amended_returns_pair_on_safe_bodies _ rfl⟩

/-! ## C8: the completeness check on stored document bodies -/

/-- Boolean equality agrees with decidable propositional equality. -/
theorem beq_eq_decide_eq {α : Type _} [BEq α] [LawfulBEq α] [DecidableEq α]
    (a b : α) : (a == b) = decide (a = b) := by
  cases h : decide (a = b)
  · simp only [decide_eq_false_iff_not] at h
    simp [h]
  · simp only [decide_eq_true_eq] at h
    simp [h]

/-- Probing the set of existing keys with a string via Python `==` is list
membership. -/
theorem mapStr_any_pyEq (ex : List String) (k : String) :
    (ex.map Json.str).any (fun x => pyEq x (.str k)) = decide (k ∈ ex) := by
  induction ex with
  | nil => simp
  | cons e rest ih =>
    simp only [List.map_cons, List.any_cons, ih, List.mem_cons]
    show ((e == k) || _) = _
    by_cases h1 : k = e
    · subst h1
      simp
    · by_cases h2 : k ∈ rest
      · simp [h2]
      · have he : (e == k) = false := by
          simp only [beq_eq_false_iff_ne]
          exact fun hek => h1 hek.symm
        simp [he, h1, h2]

/-- The fields of a stored (dumped) body with `required` truthy are exactly
those with `required := true`. -/
theorem filterRequired_dump (fs : List RDMPField) :
    filterRequired (fs.map dumpField) =
      .ok ((fs.filter (fun f => f.required)).map dumpField) := by
  induction fs with
  | nil => rfl
  | cons f rest ih =>
    have hreq : pyGetD (dumpField f) "required" (.bool false) =
        .ok (.bool f.required) := by
      simp [dumpField, pyGetD_obj, lookupField_cons]
    simp only [List.map_cons, filterRequired, Bind.bind, Except.bind, hreq, ih,
      List.filter_cons]
    cases hr : f.required <;> simp [pyTruthy, hr]

/-- The missing-key comprehension on stored field dicts yields exactly the
keys absent from the existing set, in declaration order. -/
theorem collectMissing_dump (fs : List RDMPField) (ex : List String) :
    collectMissing (fs.map dumpField) ex =
      .ok (((fs.map (fun f => f.key)).filter
        (fun k => !decide (k ∈ ex))).map Json.str) := by
  induction fs with
  | nil => rfl
  | cons f rest ih =>
    have hkey : pyGet (dumpField f) "key" = .ok (.str f.key) := by
      simp [dumpField, pyGet, lookupField_cons]
    simp only [List.map_cons, collectMissing, Bind.bind, Except.bind, hkey,
      pySetContains, mapStr_any_pyEq, ih, List.filter_cons]
    cases hm : decide (f.key ∈ ex) <;> simp [hm]

/-- Mapping does not change emptiness. -/
theorem isEmpty_map {α β : Type _} (l : List α) (f : α → β) :
    (l.map f).isEmpty = l.isEmpty := by
  cases l <;> rfl

/-- The required fields of a body (spec side). -/
def requiredFieldsOf (b : RDMPJSON) : List RDMPField :=
  b.fields.filter (fun f => f.required)

/-- The distinct field keys filled on a sample (spec side). -/
def sampleKeys (s : Sample) : List String :=
  (s.field_values.map (fun fv => fv.field_key)).eraseDups

/-- The required keys with no corresponding FieldValue, in RDMP
field-declaration order (spec side). -/
def missingRequiredKeys (b : RDMPJSON) (s : Sample) : List String :=
  ((requiredFieldsOf b).map (fun f => f.key)).filter
    (fun k => !decide (k ∈ sampleKeys s))

/-- C8: on every sample and every stored RDMP body (stored bodies are
`model_dump`s of the pydantic `RDMPJSON`, so `required` is a real boolean),
`check_sample_completeness` returns `total_required` = the number of fields
with `required = true`, `missing_fields` = the required keys with no
FieldValue on the sample in declaration order, `total_filled` = the number
of distinct field keys among the sample's FieldValues (not restricted to
required ones), and `is_complete` iff `missing_fields` is empty. -/
theorem c8_completeness_check_fields (sample : Sample) (b : RDMPJSON) :
    check_sample_completeness sample (modelDump b) = .ok
      { is_complete := (missingRequiredKeys b sample).isEmpty
        missing_fields := (missingRequiredKeys b sample).map Json.str
        total_required := (requiredFieldsOf b).length
        total_filled := (sampleKeys sample).length } := by
  have hfields : pyGetD (modelDump b) "fields" (.arr []) =
      .ok (.arr (b.fields.map dumpField)) := by
    simp [modelDump, pyGetD_obj, lookupField_cons]
  unfold check_sample_completeness
  simp only [hfields, Bind.bind, Except.bind, pyIter, filterRequired_dump,
    collectMissing_dump, missingRequiredKeys, requiredFieldsOf, sampleKeys]
  rw [List.filter_map]
  simp only [Function.comp_def, List.map_map]
  simp [isEmpty_map, List.length_map]

/-! ## The version store: maximum-version queries and append lemmas -/

/-- The project's rows, in table order. -/
def projRows (db : List RDMPVersionRow) (p : Nat) : List RDMPVersionRow :=
  db.filter (fun r => r.project_id == p)

/-- The project's committed version numbers, in table order. -/
def projVersionInts (db : List RDMPVersionRow) (p : Nat) : List Nat :=
  (projRows db p).map (fun r => r.version_int)

/-- The maximum existing `version_int` for a project (`0` when the project
has no versions). -/
def maxVersionInt (db : List RDMPVersionRow) (p : Nat) : Nat :=
  (projVersionInts db p).foldr max 0

/-- The template's version rows, in table order. -/
def tmplRows (tvs : List RDMPTemplateVersionRow) (tid : Nat) :
    List RDMPTemplateVersionRow :=
  tvs.filter (fun r => r.template_id == tid)

/-- The template's committed version numbers, in table order. -/
def tmplVersionInts (tvs : List RDMPTemplateVersionRow) (tid : Nat) : List Nat :=
  (tmplRows tvs tid).map (fun r => r.version_int)

/-- The maximum existing `version_int` for a template scope. -/
def maxTmplVersionInt (tvs : List RDMPTemplateVersionRow) (tid : Nat) : Nat :=
  (tmplVersionInts tvs tid).foldr max 0

/-- Scanning from a present incumbent always yields a result. -/
theorem foldl_pickMax_isSome {α : Type _} (f : α → Nat) (l : List α) (a : α) :
    ∃ m, l.foldl (pickMax f) (some a) = some m := by
  induction l generalizing a with
  | nil => exact ⟨a, rfl⟩
  | cons x xs ih =>
    show ∃ m, xs.foldl (pickMax f) (pickMax f (some a) x) = some m
    rw [pickMax_some]
    by_cases hgt : f x > f a
    · rw [if_pos hgt]
      exact ih x
    · rw [if_neg hgt]
      exact ih a

/-- `firstMaxBy` finds nothing exactly on the empty list. -/
theorem firstMaxBy_eq_none_iff {α : Type _} (f : α → Nat) (l : List α) :
    firstMaxBy f l = none ↔ l = [] := by
  cases l with
  | nil => simp [firstMaxBy]
  | cons x xs =>
    obtain ⟨m, hm⟩ := foldl_pickMax_isSome f xs x
    simp only [firstMaxBy, List.foldl_cons]
    have hstep : pickMax f none x = some x := rfl
    rw [hstep, hm]
    simp

/-- A `firstMaxBy` result is a member of the list (or the incumbent). -/
theorem foldl_pickMax_mem {α : Type _} (f : α → Nat) (l : List α)
    (acc : Option α) (m : α) (h : l.foldl (pickMax f) acc = some m) :
    m ∈ l ∨ acc = some m := by
  induction l generalizing acc with
  | nil => exact Or.inr h
  | cons x xs ih =>
    rcases ih (pickMax f acc x) h with hmem | hacc
    · exact Or.inl (List.mem_cons_of_mem x hmem)
    · cases acc with
      | none =>
        rw [pickMax_none] at hacc
        simp only [Option.some.injEq] at hacc
        exact Or.inl (hacc ▸ List.mem_cons_self x xs)
      | some a =>
        rw [pickMax_some] at hacc
        by_cases hgt : f x > f a
        · rw [if_pos hgt] at hacc
          simp only [Option.some.injEq] at hacc
          exact Or.inl (hacc ▸ List.mem_cons_self x xs)
        · rw [if_neg hgt] at hacc
          exact Or.inr hacc

/-- A `firstMaxBy` result dominates every list element and the incumbent. -/
theorem foldl_pickMax_ge {α : Type _} (f : α → Nat) (l : List α)
    (acc : Option α) (m : α) (h : l.foldl (pickMax f) acc = some m) :
    (∀ x ∈ l, f x ≤ f m) ∧ (∀ a, acc = some a → f a ≤ f m) := by
  induction l generalizing acc with
  | nil =>
    refine ⟨fun x hx => absurd hx (List.not_mem_nil x), fun a ha => ?_⟩
    simp only [List.foldl_nil] at h
    rw [ha] at h
    exact (Option.some.inj h) ▸ le_refl _
  | cons x xs ih =>
    obtain ⟨hall, hinc⟩ := ih (pickMax f acc x) h
    have hx_and : f x ≤ f m ∧ (∀ a, acc = some a → f a ≤ f m) := by
      cases acc with
      | none =>
        exact ⟨hinc x rfl, fun a ha => by cases ha⟩
      | some a =>
        by_cases hgt : f x > f a
        · have hx := hinc x (by rw [pickMax_some, if_pos hgt])
          exact ⟨hx, fun a' ha' =>
            (Option.some.inj ha') ▸ le_trans (Nat.le_of_lt hgt) hx⟩
        · have hA := hinc a (by rw [pickMax_some, if_neg hgt])
          exact ⟨le_trans (Nat.le_of_not_lt hgt) hA, fun a' ha' =>
            (Option.some.inj ha') ▸ hA⟩
    refine ⟨fun y hy => ?_, hx_and.2⟩
    rcases List.mem_cons.mp hy with h1 | h2
    · exact h1 ▸ hx_and.1
    · exact hall y h2

/-- Appending a strictly dominating row makes it the `firstMaxBy` result. -/
theorem foldl_pickMax_append_gt {α : Type _} (f : α → Nat) (l : List α)
    (r : α) (acc : Option α) (hl : ∀ x ∈ l, f x < f r)
    (hacc : ∀ a, acc = some a → f a < f r) :
    (l ++ [r]).foldl (pickMax f) acc = some r := by
  induction l generalizing acc with
  | nil =>
    show pickMax f acc r = some r
    cases acc with
    | none => rfl
    | some a =>
      rw [pickMax_some, if_pos (hacc a rfl)]
  | cons x xs ih =>
    show (xs ++ [r]).foldl (pickMax f) (pickMax f acc x) = some r
    refine ih (pickMax f acc x) (fun y hy => hl y (List.mem_cons_of_mem x hy)) ?_
    intro a ha
    cases acc with
    | none =>
      rw [pickMax_none] at ha
      exact (Option.some.inj ha) ▸ hl x (List.mem_cons_self x xs)
    | some b =>
      rw [pickMax_some] at ha
      by_cases hgt : f x > f b
      · rw [if_pos hgt] at ha
        exact (Option.some.inj ha) ▸ hl x (List.mem_cons_self x xs)
      · rw [if_neg hgt] at ha
        exact (Option.some.inj ha) ▸ hacc b rfl

/-- Every member is bounded by the fold of `max`. -/
theorem le_foldr_max (l : List Nat) (x : Nat) (h : x ∈ l) :
    x ≤ l.foldr max 0 := by
  induction l with
  | nil => cases h
  | cons y ys ih =>
    rcases List.mem_cons.mp h with h1 | h2
    · exact h1 ▸ Nat.le_max_left y (ys.foldr max 0)
    · exact le_trans (ih h2) (Nat.le_max_right y (ys.foldr max 0))

/-- The fold of `max` is bounded by any upper bound of the list. -/
theorem foldr_max_le (l : List Nat) (b : Nat) (h : ∀ x ∈ l, x ≤ b) :
    l.foldr max 0 ≤ b := by
  induction l with
  | nil => exact Nat.zero_le b
  | cons y ys ih =>
    exact Nat.max_le.mpr ⟨h y (List.mem_cons_self y ys),
      ih (fun x hx => h x (List.mem_cons_of_mem y hx))⟩

/-- The endpoint's `next_version_int` is one plus the maximum existing
version for the project (and `1` when the project has none, the maximum
being `0` then). -/
theorem nextVersionInt_eq (db : List RDMPVersionRow) (p : Nat) :
    nextVersionInt db p = maxVersionInt db p + 1 := by
  unfold nextVersionInt
  cases hlat : get_current_rdmp db p with
  | none =>
    have : projRows db p = [] :=
      (firstMaxBy_eq_none_iff _ _).mp hlat
    simp [maxVersionInt, projVersionInts, this]
  | some latest =>
    have hmem : latest ∈ projRows db p := by
      rcases foldl_pickMax_mem _ _ _ _ hlat with h1 | h2
      · exact h1
      · cases h2
    have hge := (foldl_pickMax_ge _ _ _ _ hlat).1
    have hle : maxVersionInt db p ≤ latest.version_int := by
      apply foldr_max_le
      intro x hx
      simp only [projVersionInts, List.mem_map] at hx
      obtain ⟨r, hr, hrx⟩ := hx
      exact hrx ▸ hge r hr
    have hge2 : latest.version_int ≤ maxVersionInt db p := by
      apply le_foldr_max
      simp only [projVersionInts, List.mem_map]
      exact ⟨latest, hmem, rfl⟩
    show latest.version_int + 1 = maxVersionInt db p + 1
    rw [Nat.le_antisymm hge2 hle]

/-- The template endpoint's next version is one plus the maximum existing
version for the template scope. -/
theorem nextTmplVersionInt_eq (tvs : List RDMPTemplateVersionRow) (tid : Nat) :
    nextTmplVersionInt tvs tid = maxTmplVersionInt tvs tid + 1 := by
  unfold nextTmplVersionInt
  cases hlat : latest_template_version tvs tid with
  | none =>
    have : tmplRows tvs tid = [] :=
      (firstMaxBy_eq_none_iff _ _).mp hlat
    simp [maxTmplVersionInt, tmplVersionInts, this]
  | some latest =>
    have hmem : latest ∈ tmplRows tvs tid := by
      rcases foldl_pickMax_mem _ _ _ _ hlat with h1 | h2
      · exact h1
      · cases h2
    have hge := (foldl_pickMax_ge _ _ _ _ hlat).1
    have hle : maxTmplVersionInt tvs tid ≤ latest.version_int := by
      apply foldr_max_le
      intro x hx
      simp only [maxTmplVersionInt, tmplVersionInts, List.mem_map] at hx
      obtain ⟨r, hr, hrx⟩ := hx
      exact hrx ▸ hge r hr
    have hge2 : latest.version_int ≤ maxTmplVersionInt tvs tid := by
      apply le_foldr_max
      simp only [tmplVersionInts, List.mem_map]
      exact ⟨latest, hmem, rfl⟩
    show latest.version_int + 1 = maxTmplVersionInt tvs tid + 1
    rw [Nat.le_antisymm hge2 hle]

/-- `projRows` distributes over an append. -/
theorem projRows_append (db : List RDMPVersionRow) (row : RDMPVersionRow)
    (p : Nat) :
    projRows (db ++ [row]) p =
      projRows db p ++ (if row.project_id == p then [row] else []) := by
  simp only [projRows, List.filter_append]
  congr 1
  cases h : (row.project_id == p) <;> simp [List.filter, h]

/-- `tmplRows` distributes over an append. -/
theorem tmplRows_append (tvs : List RDMPTemplateVersionRow)
    (row : RDMPTemplateVersionRow) (tid : Nat) :
    tmplRows (tvs ++ [row]) tid =
      tmplRows tvs tid ++ (if row.template_id == tid then [row] else []) := by
  simp only [tmplRows, List.filter_append]
  congr 1
  cases h : (row.template_id == tid) <;> simp [List.filter, h]

/-- Any committed row's version is bounded by the scope's maximum. -/
theorem version_le_maxVersionInt (db : List RDMPVersionRow) (p : Nat)
    (r : RDMPVersionRow) (h : r ∈ projRows db p) :
    r.version_int ≤ maxVersionInt db p := by
  apply le_foldr_max
  simp only [projVersionInts, List.mem_map]
  exact ⟨r, h, rfl⟩

/-- Template analog of `version_le_maxVersionInt`. -/
theorem version_le_maxTmplVersionInt (tvs : List RDMPTemplateVersionRow)
    (tid : Nat) (r : RDMPTemplateVersionRow) (h : r ∈ tmplRows tvs tid) :
    r.version_int ≤ maxTmplVersionInt tvs tid := by
  apply le_foldr_max
  simp only [tmplVersionInts, List.mem_map]
  exact ⟨r, h, rfl⟩

/-- Sequentially (the commit observing the same state the read saw), the
uniqueness check cannot fire: `next` is strictly above every committed
version of the scope. -/
theorem no_conflict_seq (db : List RDMPVersionRow) (p : Nat) :
    (db.any fun r =>
      r.project_id == p && r.version_int == nextVersionInt db p) = false := by
  rw [nextVersionInt_eq]
  by_contra hcon
  rw [Bool.not_eq_false, List.any_eq_true] at hcon
  obtain ⟨r, hr, hpred⟩ := hcon
  rw [Bool.and_eq_true] at hpred
  obtain ⟨hproj, hver⟩ := hpred
  have hmem : r ∈ projRows db p := by
    simp only [projRows, List.mem_filter]
    exact ⟨hr, hproj⟩
  have hle := version_le_maxVersionInt db p r hmem
  simp only [beq_iff_eq] at hver
  omega

/-- Template analog of `no_conflict_seq`. -/
theorem no_tmpl_conflict_seq (tvs : List RDMPTemplateVersionRow) (tid : Nat) :
    (tvs.any fun r =>
      r.template_id == tid && r.version_int == nextTmplVersionInt tvs tid) =
      false := by
  rw [nextTmplVersionInt_eq]
  by_contra hcon
  rw [Bool.not_eq_false, List.any_eq_true] at hcon
  obtain ⟨r, hr, hpred⟩ := hcon
  rw [Bool.and_eq_true] at hpred
  obtain ⟨htid, hver⟩ := hpred
  have hmem : r ∈ tmplRows tvs tid := by
    simp only [tmplRows, List.mem_filter]
    exact ⟨hr, htid⟩
  have hle := version_le_maxTmplVersionInt tvs tid r hmem
  simp only [beq_iff_eq] at hver
  omega

/-- The row a successful project append commits. -/
def newProjRow (db : List RDMPVersionRow) (p : Nat) (b : RDMPJSON)
    (prov : Option Json) (u : Nat) : RDMPVersionRow :=
  { project_id := p, version_int := nextVersionInt db p,
    rdmp_json := modelDump b, provenance_json := prov, created_by := u }

/-- A valid body always appends successfully in the sequential model, and
commits exactly the `next = max + 1` row at the end of the table. -/
theorem create_project_ok (db : List RDMPVersionRow) (p : Nat) (b : RDMPJSON)
    (prov : Option Json) (u : Nat) (es : List String)
    (hv : validate_rdmp_schema (modelDump b) = .ok (true, es)) :
    create_project_rdmp_version db p b prov u =
      .ok (newProjRow db p b prov u, db ++ [newProjRow db p b prov u]) := by
  unfold create_project_rdmp_version create_project_rdmp_versionAt newProjRow
  simp only [hv, Bind.bind, Except.bind, Bool.not_true, Bool.false_eq_true,
    reduceIte, no_conflict_seq db p]

/-- Inversion of a successful project append: the body validated, and the
result is the `next`-numbered row appended to the table. -/
theorem create_project_ok_inv (db : List RDMPVersionRow) (p : Nat)
    (b : RDMPJSON) (prov : Option Json) (u : Nat) (r : RDMPVersionRow)
    (db' : List RDMPVersionRow)
    (h : create_project_rdmp_version db p b prov u = .ok (r, db')) :
    (∃ es, validate_rdmp_schema (modelDump b) = .ok (true, es)) ∧
    r = newProjRow db p b prov u ∧ db' = db ++ [r] := by
  unfold create_project_rdmp_version create_project_rdmp_versionAt at h
  cases hv : validate_rdmp_schema (modelDump b) with
  | error e =>
    simp only [hv, Bind.bind, Except.bind] at h
    exact Except.noConfusion h
  | ok v =>
    simp only [hv, Bind.bind, Except.bind] at h
    cases hv1 : v.1 with
    | false => rw [hv1] at h; simp at h
    | true =>
      rw [hv1] at h
      simp only [Bool.not_true, Bool.false_eq_true, reduceIte] at h
      cases hc : (db.any fun row =>
          row.project_id == p && row.version_int == nextVersionInt db p) with
      | true => rw [hc] at h; simp at h
      | false =>
        rw [hc] at h
        simp only [Bool.false_eq_true, reduceIte, Except.ok.injEq,
          Prod.mk.injEq] at h
        obtain ⟨hr, hdb⟩ := h
        refine ⟨⟨v.2, congrArg Except.ok (Prod.ext hv1 rfl)⟩, hr.symm,
          by rw [← hdb, hr]⟩

/-- The row a successful template-version append commits. -/
def newTmplRow (tvs : List RDMPTemplateVersionRow) (tid : Nat) (b : RDMPJSON)
    (u : Nat) : RDMPTemplateVersionRow :=
  { template_id := tid, version_int := nextTmplVersionInt tvs tid,
    template_json := modelDump b, created_by := u }

/-- Inversion of a successful template-version append. -/
theorem create_template_version_ok_inv (ts : List RDMPTemplateRow)
    (tvs : List RDMPTemplateVersionRow) (tid : Nat) (b : RDMPJSON) (u : Nat)
    (r : RDMPTemplateVersionRow) (tvs' : List RDMPTemplateVersionRow)
    (h : create_template_version ts tvs tid b u = .ok (r, tvs')) :
    (∃ es, validate_rdmp_schema (modelDump b) = .ok (true, es)) ∧
    (ts.any fun t => t.id == tid) = true ∧
    r = newTmplRow tvs tid b u ∧ tvs' = tvs ++ [r] := by
  unfold create_template_version at h
  cases hex : (ts.any fun t => t.id == tid) with
  | false => rw [hex] at h; simp at h
  | true =>
    rw [hex] at h
    simp only [Bool.not_true, Bool.false_eq_true, reduceIte] at h
    cases hv : validate_rdmp_schema (modelDump b) with
    | error e =>
      simp only [hv, Bind.bind, Except.bind] at h
      exact Except.noConfusion h
    | ok v =>
      simp only [hv, Bind.bind, Except.bind] at h
      cases hv1 : v.1 with
      | false => rw [hv1] at h; simp at h
      | true =>
        rw [hv1] at h
        simp only [Bool.not_true, Bool.false_eq_true, reduceIte] at h
        cases hc : (tvs.any fun row =>
            row.template_id == tid &&
              row.version_int == nextTmplVersionInt tvs tid) with
        | true =>
          rw [hc] at h
          simp at h
        | false =>
          rw [hc] at h
          simp only [Bool.false_eq_true, reduceIte, Except.ok.injEq,
            Prod.mk.injEq] at h
          obtain ⟨hr, htvs⟩ := h
          refine ⟨⟨v.2, congrArg Except.ok (Prod.ext hv1 rfl)⟩, rfl, hr.symm,
            by rw [← htvs, hr]⟩

/-- Inversion of a successful template creation: the body validated, the new
template id is the autoincrement successor, and the stores gain the template
row and its version-1 row. -/
theorem create_template_ok_inv (ts : List RDMPTemplateRow)
    (tvs : List RDMPTemplateVersionRow) (name : String)
    (desc : Option String) (b : RDMPJSON) (u : Nat) (t : RDMPTemplateRow)
    (ts' : List RDMPTemplateRow) (tvs' : List RDMPTemplateVersionRow)
    (h : create_template ts tvs name desc b u = .ok (t, ts', tvs')) :
    (∃ es, validate_rdmp_schema (modelDump b) = .ok (true, es)) ∧
    t = { id := (ts.foldl (fun a t0 => max a t0.id) 0) + 1, name := name,
                description := desc } ∧
    ts' = ts ++ [t] ∧
    tvs' = tvs ++ [{ template_id := t.id, version_int := 1,
                     template_json := modelDump b, created_by := u }] := by
  unfold create_template at h
  cases hv : validate_rdmp_schema (modelDump b) with
  | error e =>
    simp only [hv, Bind.bind, Except.bind] at h
    exact Except.noConfusion h
  | ok v =>
    simp only [hv, Bind.bind, Except.bind] at h
    cases hv1 : v.1 with
    | false => rw [hv1] at h; simp at h
    | true =>
      rw [hv1] at h
      simp only [Bool.not_true, Bool.false_eq_true, reduceIte] at h
      cases hname : (ts.any fun t0 => t0.name == name) with
      | true => rw [hname] at h; simp at h
      | false =>
        rw [hname] at h
        simp only [Bool.false_eq_true, reduceIte] at h
        cases hc : (tvs.any fun row =>
            row.template_id == (ts.foldl (fun a t0 => max a t0.id) 0) + 1 &&
              row.version_int == 1) with
        | true => rw [hc] at h; simp at h
        | false =>
          rw [hc] at h
          simp only [Bool.false_eq_true, reduceIte, Except.ok.injEq,
            Prod.mk.injEq] at h
          obtain ⟨ht, hts, htvs⟩ := h
          refine ⟨⟨v.2, congrArg Except.ok (Prod.ext hv1 rfl)⟩, ht.symm, ?_, ?_⟩
          · rw [← hts, ht]
          · have hid : t.id = (ts.foldl (fun a t0 => max a t0.id) 0) + 1 := by
              rw [← ht]
            rw [← htvs, hid]

/-! ## C4: contiguous, gap-free version numbering per scope -/

/-- The fold of `max` over `1..n` is `n`. -/
theorem foldr_max_range' (n : Nat) : (List.range' 1 n).foldr max 0 = n := by
  cases n with
  | zero => rfl
  | succ m =>
    apply Nat.le_antisymm
    · apply foldr_max_le
      intro x hx
      rw [List.mem_range'_1] at hx
      omega
    · apply le_foldr_max
      rw [List.mem_range'_1]
      omega

/-- Under contiguity the scope's maximum version is its row count. -/
theorem maxVersionInt_of_contig (db : List RDMPVersionRow) (p : Nat)
    (h : projVersionInts db p = List.range' 1 (projRows db p).length) :
    maxVersionInt db p = (projRows db p).length := by
  unfold maxVersionInt
  rw [h, foldr_max_range']

/-- Template analog of `maxVersionInt_of_contig`. -/
theorem maxTmplVersionInt_of_contig (tvs : List RDMPTemplateVersionRow)
    (tid : Nat)
    (h : tmplVersionInts tvs tid = List.range' 1 (tmplRows tvs tid).length) :
    maxTmplVersionInt tvs tid = (tmplRows tvs tid).length := by
  unfold maxTmplVersionInt
  rw [h, foldr_max_range']

/-- Contiguity of the project store: for every project the committed
version numbers, in table order, are exactly `1..N`. -/
def ProjContiguous (db : List RDMPVersionRow) : Prop :=
  ∀ p, projVersionInts db p = List.range' 1 (projRows db p).length

/-- Contiguity of the template-version store. -/
def TmplContiguous (tvs : List RDMPTemplateVersionRow) : Prop :=
  ∀ tid, tmplVersionInts tvs tid = List.range' 1 (tmplRows tvs tid).length

/-- Every template-version row belongs to an existing template. -/
def TmplOwned (db : DB) : Prop :=
  ∀ row ∈ db.template_versions, ∃ t ∈ db.templates, row.template_id = t.id

/-- The reachability invariant of the store. -/
def StoreInv (db : DB) : Prop :=
  ProjContiguous db.rdmp_versions ∧ TmplContiguous db.template_versions ∧
    TmplOwned db

/-- Appending the `next`-numbered row preserves project contiguity. -/
theorem projContiguous_append (db : List RDMPVersionRow) (p : Nat)
    (row : RDMPVersionRow) (hinv : ProjContiguous db)
    (hp : row.project_id = p)
    (hver : row.version_int = maxVersionInt db p + 1) :
    ProjContiguous (db ++ [row]) := by
  intro p'
  unfold projVersionInts
  rw [projRows_append]
  cases hpp : (row.project_id == p') with
  | false =>
    simp only [Bool.false_eq_true, reduceIte, List.append_nil]
    exact hinv p'
  | true =>
    have hp' : p' = p := by
      simp only [beq_iff_eq] at hpp
      rw [← hpp, hp]
    subst hp'
    have hn := maxVersionInt_of_contig db p' (hinv p')
    have hmap : (projRows db p').map (fun r => r.version_int) =
        List.range' 1 (projRows db p').length := hinv p'
    simp only [reduceIte, List.map_append, List.length_append,
      List.map_cons, List.map_nil, List.length_cons, List.length_nil]
    rw [hmap, hver, hn, List.range'_concat]
    simp [Nat.add_comm]

/-- Appending the `next`-numbered row preserves template contiguity. -/
theorem tmplContiguous_append (tvs : List RDMPTemplateVersionRow) (tid : Nat)
    (row : RDMPTemplateVersionRow) (hinv : TmplContiguous tvs)
    (ht : row.template_id = tid)
    (hver : row.version_int = maxTmplVersionInt tvs tid + 1) :
    TmplContiguous (tvs ++ [row]) := by
  intro tid'
  unfold tmplVersionInts
  rw [tmplRows_append]
  cases htt : (row.template_id == tid') with
  | false =>
    simp only [Bool.false_eq_true, reduceIte, List.append_nil]
    exact hinv tid'
  | true =>
    have ht' : tid' = tid := by
      simp only [beq_iff_eq] at htt
      rw [← htt, ht]
    subst ht'
    have hn := maxTmplVersionInt_of_contig tvs tid' (hinv tid')
    have hmap : (tmplRows tvs tid').map (fun r => r.version_int) =
        List.range' 1 (tmplRows tvs tid').length := hinv tid'
    simp only [reduceIte, List.map_append, List.length_append,
      List.map_cons, List.map_nil, List.length_cons, List.length_nil]
    rw [hmap, hver, hn, List.range'_concat]
    simp [Nat.add_comm]

/-- The autoincrement fold dominates its start and every member's id. -/
theorem fold_max_id_aux (ts : List RDMPTemplateRow) :
    ∀ acc : Nat, acc ≤ ts.foldl (fun a t0 => max a t0.id) acc ∧
      ∀ t ∈ ts, t.id ≤ ts.foldl (fun a t0 => max a t0.id) acc := by
  induction ts with
  | nil =>
    exact fun acc => ⟨le_refl _, fun t hm => absurd hm (List.not_mem_nil t)⟩
  | cons x xs ih =>
    intro acc
    constructor
    · exact le_trans (Nat.le_max_left acc x.id) (ih (max acc x.id)).1
    · intro t hm
      rcases List.mem_cons.mp hm with h1 | h2
      · exact le_trans (h1 ▸ Nat.le_max_right acc x.id)
          (ih (max acc x.id)).1
      · exact (ih (max acc x.id)).2 t h2

/-- Every existing template id is bounded by the autoincrement fold. -/
theorem id_le_fold_max (ts : List RDMPTemplateRow) (t : RDMPTemplateRow)
    (h : t ∈ ts) : t.id ≤ ts.foldl (fun a t0 => max a t0.id) 0 :=
  (fold_max_id_aux ts 0).2 t h

/-- A fresh template (autoincrement successor id) owns no version rows
yet. -/
theorem fresh_template_no_rows (db : DB) (hown : TmplOwned db) :
    tmplRows db.template_versions
      ((db.templates.foldl (fun a t0 => max a t0.id) 0) + 1) = [] := by
  rw [List.eq_nil_iff_forall_not_mem]
  intro row hrow
  simp only [tmplRows, List.mem_filter, beq_iff_eq] at hrow
  obtain ⟨hmem, hid⟩ := hrow
  obtain ⟨t, htmem, hteq⟩ := hown row hmem
  have := id_le_fold_max db.templates t htmem
  omega

/-- One store operation preserves the invariant. -/
theorem applyReq_preserves (db : DB) (r : Req) (hinv : StoreInv db) :
    StoreInv (applyReq db r) := by
  obtain ⟨hproj, htmpl, hown⟩ := hinv
  cases r with
  | projAppend p b prov u =>
    simp only [applyReq]
    cases hc : create_project_rdmp_version db.rdmp_versions p b prov u with
    | error e => exact ⟨hproj, htmpl, hown⟩
    | ok res =>
      obtain ⟨row, vs⟩ := res
      obtain ⟨_, hrow, hvs⟩ :=
        create_project_ok_inv db.rdmp_versions p b prov u row vs hc
      refine ⟨?_, htmpl, hown⟩
      rw [hvs]
      apply projContiguous_append db.rdmp_versions p row hproj
      · rw [hrow]; rfl
      · rw [hrow]
        show nextVersionInt db.rdmp_versions p = _
        exact nextVersionInt_eq db.rdmp_versions p
  | templateCreate n d b u =>
    simp only [applyReq]
    cases hc : create_template db.templates db.template_versions n d b u with
    | error e => exact ⟨hproj, htmpl, hown⟩
    | ok res =>
      obtain ⟨t, ts', tvs'⟩ := res
      obtain ⟨_, ht, hts, htvs⟩ :=
        create_template_ok_inv db.templates db.template_versions n d b u
          t ts' tvs' hc
      have hfresh := fresh_template_no_rows db hown
      constructor
      · exact hproj
      constructor
      · -- contiguity: the fresh scope gains its version-1 row
        rw [htvs]
        apply tmplContiguous_append db.template_versions t.id _ htmpl rfl
        show (1 : Nat) = maxTmplVersionInt db.template_versions t.id + 1
        have : tmplRows db.template_versions t.id = [] := by
          rw [ht]
          exact hfresh
        simp [maxTmplVersionInt, tmplVersionInts, this]
      · -- ownership: the new row belongs to the new template
        intro row hrow
        simp only [htvs, List.mem_append, List.mem_singleton] at hrow
        rcases hrow with h1 | h2
        · obtain ⟨t0, ht0, hteq⟩ := hown row h1
          exact ⟨t0, by rw [hts]; exact List.mem_append_left _ ht0, hteq⟩
        · refine ⟨t, by rw [hts]; exact List.mem_append_right _ (List.mem_singleton_self t), ?_⟩
          rw [h2]
  | templateAppend tid b u =>
    simp only [applyReq]
    cases hc : create_template_version db.templates db.template_versions
        tid b u with
    | error e => exact ⟨hproj, htmpl, hown⟩
    | ok res =>
      obtain ⟨row, tvs'⟩ := res
      obtain ⟨_, hex, hrow, htvs⟩ :=
        create_template_version_ok_inv db.templates db.template_versions
          tid b u row tvs' hc
      constructor
      · exact hproj
      constructor
      · rw [htvs]
        apply tmplContiguous_append db.template_versions tid row htmpl
        · rw [hrow]; rfl
        · rw [hrow]
          show nextTmplVersionInt db.template_versions tid = _
          exact nextTmplVersionInt_eq db.template_versions tid
      · intro r0 hr0
        simp only [htvs, List.mem_append, List.mem_singleton] at hr0
        rcases hr0 with h1 | h2
        · exact hown r0 h1
        · rw [List.any_eq_true] at hex
          obtain ⟨t, htmem, hteq⟩ := hex
          simp only [beq_iff_eq] at hteq
          refine ⟨t, htmem, ?_⟩
          rw [h2, hrow]
          exact hteq.symm

/-- Every store state reachable by a sequence of operations satisfies the
invariant. -/
theorem runReqs_inv (reqs : List Req) : StoreInv (runReqs reqs) := by
  have hbase : StoreInv DB.empty := by
    refine ⟨fun p => rfl, fun tid => rfl, fun row hrow => ?_⟩
    cases hrow
  unfold runReqs
  induction reqs using List.reverseRecOn with
  | nil => exact hbase
  | append_singleton xs x ih =>
    rw [List.foldl_append, List.foldl_cons, List.foldl_nil]
    exact applyReq_preserves _ x ih

/-- C4: for any scope — project or template — after any sequence of store
operations against an initially empty store, the committed `version_int`
values are exactly the contiguous sequence `1..N` in commit order, with no
gaps and no duplicates; and every successful append commits a row numbered
one plus the maximum existing version of its scope (`1` when the scope has
no versions, the maximum being `0` then). -/
theorem c4_contiguous_versions :
    (∀ (reqs : List Req) (p : Nat),
      projVersionInts (runReqs reqs).rdmp_versions p =
        List.range' 1 (projRows (runReqs reqs).rdmp_versions p).length) ∧
    (∀ (reqs : List Req) (tid : Nat),
      tmplVersionInts (runReqs reqs).template_versions tid =
        List.range' 1 (tmplRows (runReqs reqs).template_versions tid).length) ∧
    (∀ (db : List RDMPVersionRow) (p : Nat) (b : RDMPJSON) (prov : Option Json)
      (u : Nat) (r : RDMPVersionRow) (db' : List RDMPVersionRow),
      create_project_rdmp_version db p b prov u = .ok (r, db') →
      r.version_int = maxVersionInt db p + 1 ∧
        (projRows db p = [] → r.version_int = 1)) ∧
    (∀ (ts : List RDMPTemplateRow) (tvs : List RDMPTemplateVersionRow)
      (tid : Nat) (b : RDMPJSON) (u : Nat) (r : RDMPTemplateVersionRow)
      (tvs' : List RDMPTemplateVersionRow),
      create_template_version ts tvs tid b u = .ok (r, tvs') →
      r.version_int = maxTmplVersionInt tvs tid + 1 ∧
        (tmplRows tvs tid = [] → r.version_int = 1)) := by
  refine ⟨fun reqs p => (runReqs_inv reqs).1 p,
    fun reqs tid => (runReqs_inv reqs).2.1 tid, ?_, ?_⟩
  · intro db p b prov u r db' h
    obtain ⟨_, hrow, _⟩ := create_project_ok_inv db p b prov u r db' h
    have hver : r.version_int = nextVersionInt db p := by rw [hrow]; rfl
    rw [hver, nextVersionInt_eq]
    refine ⟨rfl, fun hempty => ?_⟩
    simp [maxVersionInt, projVersionInts, hempty]
  · intro ts tvs tid b u r tvs' h
    obtain ⟨_, _, hrow, _⟩ :=
      create_template_version_ok_inv ts tvs tid b u r tvs' h
    have hver : r.version_int = nextTmplVersionInt tvs tid := by
      rw [hrow]; rfl
    rw [hver, nextTmplVersionInt_eq]
    refine ⟨rfl, fun hempty => ?_⟩
    simp [maxTmplVersionInt, tmplVersionInts, hempty]

/-- C4 witness: a concrete run — two appends to project 1, one to project 2,
a template creation and a template append — and a concrete successful append
whose committed number is `max + 1`. -/
theorem c4_witness :
    (projVersionInts (runReqs
      [.projAppend 1 demoBody none 7, .projAppend 1 demoBody none 7,
       .projAppend 2 demoBody none 7,
       .templateCreate "t" none demoBody 7,
       .templateAppend 1 demoBody 7]).rdmp_versions 1 = [1, 2]) ∧
    (newProjRow [conflictRow] 1 demoBody none 7).version_int =
      maxVersionInt [conflictRow] 1 + 1 :=
  ⟨by rfl,
    (c4_contiguous_versions.2.2.1 [conflictRow] 1 demoBody none 7
      (newProjRow [conflictRow] 1 demoBody none 7)
      ([conflictRow] ++ [newProjRow [conflictRow] 1 demoBody none 7])
      (by rfl)).1⟩

/-! ## The validator on stored (pydantic-dumped) bodies

Every body that reaches the validator through the API is the `model_dump()`
of an `RDMPJSON`: roles are dicts with a string `name` and a bool-valued
`permissions` dict, fields are dicts with all six keys present (pydantic
fills defaults and dumps `None`-valued `allowed_values` as a present key).
On this shape the validator never raises, and its error list is computed by
the typed functions below. -/

/-- The missing-permission messages for one dumped role. -/
def missingPermMsgs (r : RDMPRole) : List String :=
  (requiredPerms.filter
    (fun k => !(r.permissions.any (fun q => q.1 == k)))).map
    (fun k => "Role '" ++ r.name ++ "' missing permission '" ++ k ++ "'")

/-- The role-loop error list on dumped roles; `seen` is the name set
accumulated so far. -/
def rolesErrsT : List RDMPRole → List Json → List String
  | [], _ => []
  | r :: rest, seen =>
    (if seen.any (fun x => pyEq x (.str r.name)) then
      ["Duplicate role name: " ++ r.name] else []) ++
    missingPermMsgs r ++ rolesErrsT rest (.str r.name :: seen)

/-- The field-loop error list for one dumped field. -/
def fieldErrsOne (f : RDMPField) (seen : List Json) : List String :=
  (if seen.any (fun x => pyEq x (.str f.key)) then
    ["Duplicate field key: " ++ f.key] else []) ++
  (if !(validFieldTypes.any (fun t => t == f.type)) then
    ["Field '" ++ f.key ++ "' has invalid type: " ++ f.type] else []) ++
  (if !(validVisibilities.any (fun t => t == f.visibility)) then
    ["Field '" ++ f.key ++ "' has invalid visibility: " ++ f.visibility]
  else [])

/-- The field-loop error list on dumped fields. -/
def fieldsErrsT : List RDMPField → List Json → List String
  | [], _ => []
  | f :: rest, seen => fieldErrsOne f seen ++ fieldsErrsT rest (.str f.key :: seen)

/-- The whole error list the validator computes on a dumped body. -/
def dumpErrs (b : RDMPJSON) : List String :=
  (if b.roles.isEmpty then ["'roles' must be a non-empty list"]
   else rolesErrsT b.roles []) ++
  (if b.fields.isEmpty then ["'fields' must be a non-empty list"]
   else fieldsErrsT b.fields [])

/-- Membership of a key in a dumped permissions dict is membership in the
underlying list. -/
theorem any_map_permKey (pkvs : List (String × Bool)) (k : String) :
    ((pkvs.map (fun q => (q.1, Json.bool q.2))).any fun p => p.1 == k) =
      pkvs.any fun q => q.1 == k := by
  induction pkvs with
  | nil => rfl
  | cons x xs ih => simp [List.any_cons, ih]

/-- The permission loop on a dumped permissions dict. -/
theorem checkPerms_dump (pkvs : List (String × Bool)) (label : Json)
    (ks : List String) (errs : List String) :
    checkPerms (.obj (pkvs.map (fun q => (q.1, Json.bool q.2)))) label ks errs =
      .ok (errs ++ (ks.filter
        (fun k => !(pkvs.any (fun q => q.1 == k)))).map
        (fun k => "Role '" ++ pyStr label ++ "' missing permission '" ++
          k ++ "'")) := by
  induction ks generalizing errs with
  | nil => simp [checkPerms]
  | cons k rest ih =>
    have hc : pyContains (.obj (pkvs.map (fun q => (q.1, Json.bool q.2)))) k =
        .ok (pkvs.any (fun q => q.1 == k)) := by
      simp only [pyContains]
      exact congrArg Except.ok (any_map_permKey pkvs k)
    simp only [checkPerms, hc, Bind.bind, Except.bind, ih, List.filter_cons]
    cases hk : (pkvs.any (fun q => q.1 == k)) <;> simp

/-- The name block on a dumped role. -/
theorem roleNameBlock_dump (r : RDMPRole) (i : Nat) (seen : List Json)
    (errs : List String) :
    roleNameBlock (dumpRole r) i seen errs =
      .ok ((.str r.name) :: seen,
        errs ++ (if seen.any (fun x => pyEq x (.str r.name)) then
          ["Duplicate role name: " ++ r.name] else [])) := by
  have hc : pyContains (dumpRole r) "name" = .ok true := by
    simp [dumpRole, pyContains]
  have hg : pyGet (dumpRole r) "name" = .ok (.str r.name) := by
    simp [dumpRole, pyGet, lookupField_cons]
  simp only [roleNameBlock, hc, hg, Bind.bind, Except.bind, Bool.not_true,
    Bool.false_eq_true, reduceIte, pySetContains]
  cases hd : (seen.any (fun x => pyEq x (.str r.name))) <;> simp [pyStr]

/-- The permissions block on a dumped role. -/
theorem rolePermsBlock_dump (r : RDMPRole) (i : Nat) (errs : List String) :
    rolePermsBlock (dumpRole r) i errs = .ok (errs ++ missingPermMsgs r) := by
  have hc : pyContains (dumpRole r) "permissions" = .ok true := by
    simp [dumpRole, pyContains]
  have hg : pyGet (dumpRole r) "permissions" =
      .ok (.obj (r.permissions.map (fun q => (q.1, Json.bool q.2)))) := by
    simp [dumpRole, pyGet, lookupField_cons]
  have hl : pyGetD (dumpRole r) "name" (.num i) = .ok (.str r.name) := by
    simp [dumpRole, pyGetD, lookupField_cons]
  simp only [rolePermsBlock, hc, hg, hl, Bind.bind, Except.bind,
    Bool.not_true, Bool.false_eq_true, reduceIte,
    checkPerms_dump r.permissions (.str r.name) requiredPerms errs]
  rfl

/-- The role loop on dumped roles. -/
theorem processRoles_dump (rs : List RDMPRole) :
    ∀ (i : Nat) (seen : List Json) (errs : List String),
      processRoles (rs.map dumpRole) i seen errs =
        .ok ((rs.map (fun r => Json.str r.name)).reverse ++ seen,
          errs ++ rolesErrsT rs seen) := by
  induction rs with
  | nil => intro i seen errs; simp [processRoles, rolesErrsT]
  | cons r rest ih =>
    intro i seen errs
    simp only [List.map_cons, processRoles, roleNameBlock_dump, Bind.bind,
      Except.bind, rolePermsBlock_dump, ih, rolesErrsT, List.reverse_cons]
    simp [List.append_assoc]

/-- The key block on a dumped field. -/
theorem fieldKeyBlock_dump (f : RDMPField) (i : Nat) (seen : List Json)
    (errs : List String) :
    fieldKeyBlock (dumpField f) i seen errs =
      .ok ((.str f.key) :: seen,
        errs ++ (if seen.any (fun x => pyEq x (.str f.key)) then
          ["Duplicate field key: " ++ f.key] else [])) := by
  have hc : pyContains (dumpField f) "key" = .ok true := by
    simp [dumpField, pyContains]
  have hg : pyGet (dumpField f) "key" = .ok (.str f.key) := by
    simp [dumpField, pyGet, lookupField_cons]
  simp only [fieldKeyBlock, hc, hg, Bind.bind, Except.bind, Bool.not_true,
    Bool.false_eq_true, reduceIte, pySetContains]
  cases hd : (seen.any (fun x => pyEq x (.str f.key))) <;> simp [pyStr]

/-- The type block on a dumped field. -/
theorem fieldTypeBlock_dump (f : RDMPField) (i : Nat) (errs : List String) :
    fieldTypeBlock (dumpField f) i errs =
      .ok (errs ++ (if !(validFieldTypes.any (fun t => t == f.type)) then
        ["Field '" ++ f.key ++ "' has invalid type: " ++ f.type] else [])) := by
  have hc : pyContains (dumpField f) "type" = .ok true := by
    simp [dumpField, pyContains]
  have hg : pyGet (dumpField f) "type" = .ok (.str f.type) := by
    simp [dumpField, pyGet, lookupField_cons]
  have hl : pyGetD (dumpField f) "key" (.num i) = .ok (.str f.key) := by
    simp [dumpField, pyGetD, lookupField_cons]
  have hany : (validFieldTypes.any (fun t => pyEq (.str t) (.str f.type))) =
      (validFieldTypes.any (fun t => t == f.type)) := by
    rfl
  simp only [fieldTypeBlock, hc, hg, hl, Bind.bind, Except.bind,
    Bool.not_true, Bool.false_eq_true, reduceIte, hany]
  cases ht : (validFieldTypes.any (fun t => t == f.type)) <;> simp [pyStr]

/-- The visibility block on a dumped field (the `visibility` key is always
present in a dump). -/
theorem fieldVisibilityBlock_dump (f : RDMPField) (i : Nat)
    (errs : List String) :
    fieldVisibilityBlock (dumpField f) i errs =
      .ok (errs ++ (if !(validVisibilities.any (fun t => t == f.visibility))
        then ["Field '" ++ f.key ++ "' has invalid visibility: " ++
          f.visibility]
        else [])) := by
  have hc : pyContains (dumpField f) "visibility" = .ok true := by
    simp [dumpField, pyContains]
  have hg : pyGet (dumpField f) "visibility" = .ok (.str f.visibility) := by
    simp [dumpField, pyGet, lookupField_cons]
  have hl : pyGetD (dumpField f) "key" (.num i) = .ok (.str f.key) := by
    simp [dumpField, pyGetD, lookupField_cons]
  have hany : (validVisibilities.any (fun t => pyEq (.str t) (.str f.visibility))) =
      (validVisibilities.any (fun t => t == f.visibility)) := by
    rfl
  simp only [fieldVisibilityBlock, hc, hg, hl, Bind.bind, Except.bind,
    reduceIte, hany]
  cases hv : (validVisibilities.any (fun t => t == f.visibility)) <;>
    simp [pyStr]

/-- The categorical block on a dumped field never reports: the dump always
contains an `allowed_values` key (holding `None` when the pydantic field was
absent), so `"allowed_values" not in field` is false. -/
theorem fieldCategoricalBlock_dump (f : RDMPField) (i : Nat)
    (errs : List String) :
    fieldCategoricalBlock (dumpField f) i errs = .ok errs := by
  have hg : pyGetD (dumpField f) "type" .null = .ok (.str f.type) := by
    simp [dumpField, pyGetD, lookupField_cons]
  have hc : pyContains (dumpField f) "allowed_values" = .ok true := by
    simp [dumpField, pyContains]
  simp only [fieldCategoricalBlock, hg, hc, Bind.bind, Except.bind,
    Bool.not_true, Bool.false_eq_true, reduceIte]
  cases ht : pyEq (.str f.type) (.str "categorical") <;> simp

/-- The label membership test on a dumped field is always true. -/
theorem fieldLabel_dump (f : RDMPField) :
    pyContains (dumpField f) "label" = .ok true := by
  simp [dumpField, pyContains]

/-- The field loop on dumped fields. -/
theorem processFields_dump (fs : List RDMPField) :
    ∀ (i : Nat) (seen : List Json) (errs : List String),
      processFields (fs.map dumpField) i seen errs =
        .ok ((fs.map (fun f => Json.str f.key)).reverse ++ seen,
          errs ++ fieldsErrsT fs seen) := by
  induction fs with
  | nil => intro i seen errs; simp [processFields, fieldsErrsT]
  | cons f rest ih =>
    intro i seen errs
    simp only [List.map_cons, processFields, fieldKeyBlock_dump,
      fieldLabel_dump, Bind.bind, Except.bind, Bool.not_true,
      Bool.false_eq_true, reduceIte, fieldTypeBlock_dump,
      fieldVisibilityBlock_dump, fieldCategoricalBlock_dump, ih,
      fieldsErrsT, fieldErrsOne, List.reverse_cons]
    simp [List.append_assoc]

/-- The validator's exact result on a dumped body: it never raises there,
and returns `(errors.isEmpty, errors)` for the typed error list. -/
theorem validate_modelDump_eq (b : RDMPJSON) :
    validate_rdmp_schema (modelDump b) =
      .ok ((dumpErrs b).isEmpty, dumpErrs b) := by
  have hcr : pyContains (modelDump b) "roles" = .ok true := by
    simp [modelDump, pyContains]
  have hcf : pyContains (modelDump b) "fields" = .ok true := by
    simp [modelDump, pyContains]
  have hgr : pyGet (modelDump b) "roles" =
      .ok (.arr (b.roles.map dumpRole)) := by
    simp [modelDump, pyGet, lookupField_cons]
  have hgf : pyGet (modelDump b) "fields" =
      .ok (.arr (b.fields.map dumpField)) := by
    simp [modelDump, pyGet, lookupField_cons]
  simp only [validate_rdmp_schema, hcr, hcf, Bind.bind, Except.bind,
    Bool.not_true, Bool.false_eq_true, reduceIte, List.nil_append,
    rolesSection, fieldsSection, hgr, hgf]
  cases hrs : b.roles with
  | nil =>
    cases hfs : b.fields with
    | nil => simp [dumpErrs, hrs, hfs]
    | cons f fr =>
      simp only [isEmpty_map, List.isEmpty_cons, List.isEmpty_nil,
        Bool.false_eq_true, reduceIte, processFields_dump, Bind.bind,
        Except.bind]
      simp [dumpErrs, hrs, hfs]
  | cons r rr =>
    cases hfs : b.fields with
    | nil =>
      simp only [isEmpty_map, List.isEmpty_cons, List.isEmpty_nil,
        Bool.false_eq_true, reduceIte, processRoles_dump, Bind.bind,
        Except.bind]
      simp [dumpErrs, hrs, hfs]
    | cons f fr =>
      simp only [isEmpty_map, List.isEmpty_cons, Bool.false_eq_true,
        reduceIte, processRoles_dump, processFields_dump, Bind.bind,
        Except.bind]
      simp [dumpErrs, hrs, hfs]

/-! ## C5: append / get-latest round trip -/

/-- Appending a row that strictly dominates a scope's versions makes it the
current document. -/
theorem get_current_append_strict (db : List RDMPVersionRow)
    (row : RDMPVersionRow) (p : Nat) (hp : row.project_id = p)
    (hgt : ∀ x ∈ projRows db p, x.version_int < row.version_int) :
    get_current_rdmp (db ++ [row]) p = some row := by
  show firstMaxBy _ ((db ++ [row]).filter (fun r => r.project_id == p)) =
    some row
  have hfil : (db ++ [row]).filter (fun r => r.project_id == p) =
      projRows db p ++ [row] := by
    show projRows (db ++ [row]) p = _
    rw [projRows_append]
    simp [hp]
  rw [hfil]
  exact foldl_pickMax_append_gt _ _ _ none hgt (fun a ha => by cases ha)

/-- C5: appending a valid body to a project scope succeeds, and
`get_current_rdmp` then returns exactly the committed document: its body
deep-equals the dumped input and its `version_int` is one greater than the
prior maximum (so `1` when the scope had no versions). -/
theorem c5_append_then_get_latest (db : List RDMPVersionRow) (p : Nat)
    (b : RDMPJSON) (prov : Option Json) (u : Nat) (es : List String)
    (hv : validate_rdmp_schema (modelDump b) = .ok (true, es)) :
    ∃ r db', create_project_rdmp_version db p b prov u = .ok (r, db') ∧
      get_current_rdmp db' p = some r ∧
      r.rdmp_json = modelDump b ∧
      r.version_int = maxVersionInt db p + 1 ∧
      (projRows db p = [] → r.version_int = 1) := by
  refine ⟨newProjRow db p b prov u, db ++ [newProjRow db p b prov u],
    create_project_ok db p b prov u es hv, ?_, rfl, ?_, ?_⟩
  · apply get_current_append_strict db _ p rfl
    intro x hx
    have := version_le_maxVersionInt db p x hx
    have hver : (newProjRow db p b prov u).version_int =
        maxVersionInt db p + 1 := by
      show nextVersionInt db p = _
      exact nextVersionInt_eq db p
    omega
  · show nextVersionInt db p = _
    exact nextVersionInt_eq db p
  · intro hempty
    show nextVersionInt db p = 1
    rw [nextVersionInt_eq]
    simp [maxVersionInt, projVersionInts, hempty]

/-- C5 witness: appending the demo body to an empty store commits version 1
and `get_current_rdmp` returns it. -/
theorem c5_witness :
    validate_rdmp_schema (modelDump demoBody) = .ok (true, []) ∧
    (∃ r db', create_project_rdmp_version [] 3 demoBody none 7 = .ok (r, db') ∧
      get_current_rdmp db' 3 = some r ∧
      r.rdmp_json = modelDump demoBody ∧
      r.version_int = maxVersionInt [] 3 + 1 ∧
      (projRows [] 3 = [] → r.version_int = 1)) :=
  ⟨rfl, c5_append_then_get_latest [] 3 demoBody none 7 [] rfl⟩

/-! ## C6: invalid bodies are rejected and never persisted -/

/-- A stored document body: the dump of a pydantic `RDMPJSON` that passed
the schema validator. -/
def StoredBody (j : Json) : Prop :=
  ∃ b : RDMPJSON, j = modelDump b ∧
    ∃ es, validate_rdmp_schema (modelDump b) = .ok (true, es)

/-- One store operation preserves stored-body shape of every committed
document. -/
theorem applyReq_stored (db : DB) (r : Req)
    (h1 : ∀ row ∈ db.rdmp_versions, StoredBody row.rdmp_json)
    (h2 : ∀ row ∈ db.template_versions, StoredBody row.template_json) :
    (∀ row ∈ (applyReq db r).rdmp_versions, StoredBody row.rdmp_json) ∧
    (∀ row ∈ (applyReq db r).template_versions, StoredBody row.template_json) := by
  cases r with
  | projAppend p b prov u =>
    simp only [applyReq]
    cases hc : create_project_rdmp_version db.rdmp_versions p b prov u with
    | error e => exact ⟨h1, h2⟩
    | ok res =>
      obtain ⟨row, vs⟩ := res
      obtain ⟨hval, hrow, hvs⟩ :=
        create_project_ok_inv db.rdmp_versions p b prov u row vs hc
      refine ⟨?_, h2⟩
      intro r0 hr0
      rw [hvs] at hr0
      rcases List.mem_append.mp hr0 with hm | hm
      · exact h1 r0 hm
      · rw [List.mem_singleton.mp hm, hrow]
        exact ⟨b, rfl, hval⟩
  | templateCreate n d b u =>
    simp only [applyReq]
    cases hc : create_template db.templates db.template_versions n d b u with
    | error e => exact ⟨h1, h2⟩
    | ok res =>
      obtain ⟨t, ts', tvs'⟩ := res
      obtain ⟨hval, ht, hts, htvs⟩ :=
        create_template_ok_inv db.templates db.template_versions n d b u
          t ts' tvs' hc
      refine ⟨h1, ?_⟩
      intro r0 hr0
      rw [htvs] at hr0
      rcases List.mem_append.mp hr0 with hm | hm
      · exact h2 r0 hm
      · rw [List.mem_singleton.mp hm]
        exact ⟨b, rfl, hval⟩
  | templateAppend tid b u =>
    simp only [applyReq]
    cases hc : create_template_version db.templates db.template_versions
        tid b u with
    | error e => exact ⟨h1, h2⟩
    | ok res =>
      obtain ⟨row, tvs'⟩ := res
      obtain ⟨hval, _, hrow, htvs⟩ :=
        create_template_version_ok_inv db.templates db.template_versions
          tid b u row tvs' hc
      refine ⟨h1, ?_⟩
      intro r0 hr0
      rw [htvs] at hr0
      rcases List.mem_append.mp hr0 with hm | hm
      · exact h2 r0 hm
      · rw [List.mem_singleton.mp hm, hrow]
        exact ⟨b, rfl, hval⟩

/-- Every reachable store state holds only stored (validated, dumped)
bodies. -/
theorem runReqs_stored (reqs : List Req) :
    (∀ row ∈ (runReqs reqs).rdmp_versions, StoredBody row.rdmp_json) ∧
    (∀ row ∈ (runReqs reqs).template_versions, StoredBody row.template_json) := by
  unfold runReqs
  induction reqs using List.reverseRecOn with
  | nil =>
    exact ⟨(fun row hr => nomatch hr), (fun row hr => nomatch hr)⟩
  | append_singleton xs x ih =>
    rw [List.foldl_append, List.foldl_cons, List.foldl_nil]
    exact applyReq_stored _ x ih.1 ih.2

/-- C6: a body failing schema validation makes each append endpoint fail
with the schema-invalid error carrying the validator's error list, writing
nothing (the operation returns an error and produces no new table state);
and across any sequence of store operations, every committed version row —
project or template scope — holds a body that passes the schema
validator. -/
theorem c6_schema_invalid_rejected :
    (∀ (db : List RDMPVersionRow) (p : Nat) (b : RDMPJSON)
      (prov : Option Json) (u : Nat) (es : List String),
      validate_rdmp_schema (modelDump b) = .ok (false, es) →
      create_project_rdmp_version db p b prov u =
        .error (.schemaInvalid es)) ∧
    (∀ (ts : List RDMPTemplateRow) (tvs : List RDMPTemplateVersionRow)
      (tid : Nat) (b : RDMPJSON) (u : Nat) (es : List String),
      (ts.any fun t => t.id == tid) = true →
      validate_rdmp_schema (modelDump b) = .ok (false, es) →
      create_template_version ts tvs tid b u = .error (.schemaInvalid es)) ∧
    (∀ (ts : List RDMPTemplateRow) (tvs : List RDMPTemplateVersionRow)
      (n : String) (d : Option String) (b : RDMPJSON) (u : Nat)
      (es : List String),
      validate_rdmp_schema (modelDump b) = .ok (false, es) →
      create_template ts tvs n d b u = .error (.schemaInvalid es)) ∧
    (∀ reqs : List Req,
      (∀ row ∈ (runReqs reqs).rdmp_versions,
        ∃ es, validate_rdmp_schema row.rdmp_json = .ok (true, es)) ∧
      (∀ row ∈ (runReqs reqs).template_versions,
        ∃ es, validate_rdmp_schema row.template_json = .ok (true, es))) := by
  refine ⟨?_, ?_, ?_, ?_⟩
  · intro db p b prov u es hv
    unfold create_project_rdmp_version create_project_rdmp_versionAt
    simp [hv, Bind.bind, Except.bind]
  · intro ts tvs tid b u es hex hv
    unfold create_template_version
    simp [hex, hv, Bind.bind, Except.bind]
  · intro ts tvs n d b u es hv
    unfold create_template
    simp [hv, Bind.bind, Except.bind]
  · intro reqs
    obtain ⟨h1, h2⟩ := runReqs_stored reqs
    refine ⟨fun row hr => ?_, fun row hr => ?_⟩
    · obtain ⟨b, hb, es, hval⟩ := h1 row hr
      exact ⟨es, by rw [hb]; exact hval⟩
    · obtain ⟨b, hb, es, hval⟩ := h2 row hr
      exact ⟨es, by rw [hb]; exact hval⟩

/-- C6 witness: a body with empty role and field lists fails validation with
both non-empty-list errors, and the append returns exactly that schema
error. -/
theorem c6_witness :
    validate_rdmp_schema (modelDump emptyListsBody) =
      .ok (false, ["'roles' must be a non-empty list",
        "'fields' must be a non-empty list"]) ∧
    create_project_rdmp_version [] 1 emptyListsBody none 7 =
      .error (.schemaInvalid ["'roles' must be a non-empty list",
        "'fields' must be a non-empty list"]) :=
  ⟨rfl, c6_schema_invalid_rejected.1 [] 1 emptyListsBody none 7 _ rfl⟩

/-! ## C1: stored documents give every matched role all four permission keys -/

/-- `next(...)` over dumped roles is a typed `find?` on the underlying
roles. -/
theorem findRole_dump (rs : List RDMPRole) (nm : String) :
    findRole (rs.map dumpRole) nm =
      .ok ((rs.find? (fun r => r.name == nm)).map dumpRole) := by
  induction rs with
  | nil => rfl
  | cons r rest ih =>
    have hg : pyGet (dumpRole r) "name" = .ok (.str r.name) := by
      simp [dumpRole, pyGet, lookupField_cons]
    simp only [List.map_cons, findRole, hg, Bind.bind, Except.bind]
    cases hk : (r.name == nm) with
    | true =>
      have hpy : pyEq (.str r.name) (.str nm) = true := hk
      simp [hpy, List.find?_cons, hk]
    | false =>
      have hpy : pyEq (.str r.name) (.str nm) = false := hk
      simp [hpy, List.find?_cons, hk, ih]

/-- A role loop returning no errors left every role with all four
recognized permission keys present. -/
theorem rolesErrsT_perms_present (rs : List RDMPRole) :
    ∀ seen, rolesErrsT rs seen = [] →
      ∀ r ∈ rs, ∀ k ∈ requiredPerms,
        (r.permissions.any fun q => q.1 == k) = true := by
  induction rs with
  | nil => intro seen _ r hr; cases hr
  | cons r0 rest ih =>
    intro seen h r hr
    unfold rolesErrsT at h
    rcases List.append_eq_nil.mp h with ⟨h12, h3⟩
    rcases List.append_eq_nil.mp h12 with ⟨_, h2⟩
    rcases List.mem_cons.mp hr with hr0 | hrrest
    · subst hr0
      intro k hk
      by_contra hany
      have hanyf : (r.permissions.any fun q => q.1 == k) = false :=
        Bool.not_eq_true _ ▸ Bool.eq_false_iff.mpr hany
      have hkmem : k ∈ requiredPerms.filter
          (fun k => !(r.permissions.any (fun q => q.1 == k))) :=
        List.mem_filter.mpr ⟨hk, by simp [hanyf]⟩
      have : requiredPerms.filter
          (fun k => !(r.permissions.any (fun q => q.1 == k))) = [] :=
        List.map_eq_nil_iff.mp h2
      rw [this] at hkmem
      cases hkmem
    · exact ih _ h3 r hrrest

/-- A dumped body that passes the schema validator has, in every role, all
four recognized permission keys. -/
theorem dump_valid_perms (b : RDMPJSON) (es : List String)
    (hv : validate_rdmp_schema (modelDump b) = .ok (true, es)) :
    ∀ r ∈ b.roles, ∀ k ∈ requiredPerms,
      (r.permissions.any fun q => q.1 == k) = true := by
  rw [validate_modelDump_eq] at hv
  simp only [Except.ok.injEq, Prod.mk.injEq] at hv
  have hnil : dumpErrs b = [] := List.isEmpty_iff.mp hv.1
  unfold dumpErrs at hnil
  rcases List.append_eq_nil.mp hnil with ⟨hA, _⟩
  cases hre : b.roles.isEmpty with
  | false =>
    rw [hre] at hA
    simp only [Bool.false_eq_true, if_false] at hA
    exact rolesErrsT_perms_present b.roles [] hA
  | true =>
    rw [hre] at hA
    simp at hA

/-- C1: for any membership table and any version table whose documents are
stored bodies (validated pydantic dumps — the shape every committed row has,
see `runReqs_stored`), `get_user_permissions` returns a dict that binds all
four recognized permission keys whenever its result is consulted: the
all-`False` fallback carries them explicitly, and a matched role's raw
`permissions` dict carries them because the stored body passed validation. -/
theorem c1_permissions_have_all_keys (ms : List Membership)
    (db : List RDMPVersionRow) (u p : Nat)
    (hdb : ∀ row ∈ db, StoredBody row.rdmp_json) :
    ∃ kvs : List (String × Json),
      get_user_permissions ms db u p = .ok (.obj kvs) ∧
      ∀ k ∈ requiredPerms, (lookupField kvs k).isSome = true := by
  unfold get_user_permissions
  cases hm : ms.find? (fun m => m.project_id == p && m.user_id == u) with
  | none => exact ⟨_, rfl, by decide⟩
  | some m =>
    cases hcur : get_current_rdmp db p with
    | none => exact ⟨_, rfl, by decide⟩
    | some rdmp =>
      have hmem : rdmp ∈ db := by
        rcases foldl_pickMax_mem _ _ _ _ hcur with h1 | h2
        · exact List.mem_of_mem_filter h1
        · cases h2
      obtain ⟨b, hbody, es, hval⟩ := hdb rdmp hmem
      have hroles : pyGetD rdmp.rdmp_json "roles" (.arr []) =
          .ok (.arr (b.roles.map dumpRole)) := by
        rw [hbody]
        simp [modelDump, pyGetD, lookupField_cons]
      have hiter : pyIter (Json.arr (b.roles.map dumpRole)) =
          .ok (b.roles.map dumpRole) := rfl
      simp only [hroles, hiter, findRole_dump, Bind.bind, Except.bind]
      cases hfind : b.roles.find? (fun r => r.name == m.role_name) with
      | none =>
        simp only [Option.map_none']
        exact ⟨_, rfl, by decide⟩
      | some r =>
        have hrmem : r ∈ b.roles := List.mem_of_find?_eq_some hfind
        have hperms := dump_valid_perms b es hval r hrmem
        refine ⟨r.permissions.map (fun q => (q.1, Json.bool q.2)), ?_, ?_⟩
        · simp only [Option.map_some']
          simp [dumpRole, pyGetD, lookupField_cons]
        · intro k hk
          rw [← any_eq_isSome_lookupField, any_map_permKey]
          exact hperms k hk

/-- A committed row holding the dump of the demo body. -/
def demoRow : RDMPVersionRow :=
  { project_id := 3, version_int := 1, rdmp_json := modelDump demoBody,
    provenance_json := none, created_by := 7 }

/-- C1 witness: a member with role `Lead` on a store holding the demo body
gets a permissions dict binding all four recognized keys. -/
theorem c1_witness :
    ∃ kvs : List (String × Json),
      get_user_permissions [⟨3, 7, "Lead"⟩] [demoRow] 7 3 = .ok (.obj kvs) ∧
      ∀ k ∈ requiredPerms, (lookupField kvs k).isSome = true :=
  c1_permissions_have_all_keys [⟨3, 7, "Lead"⟩] [demoRow] 7 3
    (fun row hr => by
      rw [List.mem_singleton.mp hr]
      exact ⟨demoBody, rfl, [], rfl⟩)

end MetaFirst
